import Mathlib

/-! # NRQL alert condition resource of the New Relic Terraform provider

A shallow embedding of `newrelic/resource_newrelic_nrql_alert_condition.go`:
the validation and diff-suppression functions, the declared
conflict relationships, and the four CRUD handlers run against an abstract
remote client.  Go `int` values are mathematical integers (`Int`); the only
places where the 64-bit width matters (`strconv.Atoi`) carry the bound
explicitly.  Go strings are Lean strings, that is, valid UTF-8 text.
-/

set_option linter.unusedVariables false

namespace NewRelic

/-! ## Errors -/

/-- The two failure causes of package strconv: invalid text (`strconv.ErrSyntax`)
and a value out of range (`strconv.ErrRange`). -/
inductive NumErrKind where
  | ErrInvalid
  | ErrRange
deriving DecidableEq, Repr

/-- A `*strconv.NumError`: the failing function, its input and the cause. -/
structure NumError where
  Func : String
  Num : String
  Err : NumErrKind
deriving DecidableEq, Repr

/-- An operand of `fmt.Errorf`. The format string is kept unexpanded next to
its operands, so an error value records exactly the call that built it. -/
inductive FmtArg where
  | str (s : String)
  | int (i : Int)
  | strs (l : List String)
  | numError (e : NumError)
deriving DecidableEq, Repr

/-- A Go `error` value as the resource sees it: built by `fmt.Errorf`, a
`*strconv.NumError`, the `*errors.NotFound` of the client library, or any other
error of the client library. -/
inductive GoError where
  | errorf (format : String) (args : List FmtArg)
  | num (e : NumError)
  | notFound (msg : String)
  | api (msg : String)
deriving DecidableEq, Repr

/-- The type assertion `_, ok := err.(*errors.NotFound)`. -/
def GoError.isNotFound : GoError → Bool
  | .notFound _ => true
  | _ => false

deriving instance DecidableEq for Except

/-- Result of a `schema.SchemaValidateFunc`: `(warns []string, errs []error)`. -/
abbrev ValidateResult := List String × List GoError

/-! ## Integer validators of the schema -/

/-- The validator `validation.IntBetween(min, max)` of the Terraform plugin SDK, applied to
an `int` value: one error when the value lies outside `[min, max]`. -/
def IntBetween (min max : Int) (v : Int) (k : String) : ValidateResult :=
  if v < min ∨ v > max then
    ([], [GoError.errorf "expected %s to be in the range (%d - %d), got %d"
            [.str k, .int min, .int max, .int v]])
  else
    ([], [])

/-- The `ValidateFunc` of `term.duration`: `validation.IntBetween(1, 120)`. -/
def duration_ValidateFunc (v : Int) (key : String) : ValidateResult :=
  IntBetween 1 120 v key

/-- The `ValidateFunc` of `nrql.evaluation_offset` (source lines 92-98). -/
def evaluation_offset_ValidateFunc (v : Int) (key : String) : ValidateResult :=
  let errs : List GoError := []
  let errs :=
    if v < 1 ∨ v > 20 then
      errs ++ [GoError.errorf "%q must be between 0 and 20 inclusive, got: %d" [.str key, .int v]]
    else errs
  ([], errs)

/-- The `ValidateFunc` of `term.threshold_duration` (source lines 171-187).
The Go operator `%` on `int` is the truncating remainder, `Int.tmod`. -/
def threshold_duration_ValidateFunc (v : Int) (key : String) : ValidateResult :=
  let errs : List GoError := []
  let errs :=
    if Int.tmod v 60 ≠ 0 then
      errs ++ [GoError.errorf "%q must be a factor of 60, got: %d" [.str key, .int v]]
    else errs
  let errs :=
    if v < 120 ∨ v > 7200 then
      errs ++ [GoError.errorf "%q must be between 120 and 7200 inclusive, got: %d" [.str key, .int v]]
    else errs
  ([], errs)

/-! ## Package strconv -/

/-- Largest `uint64`. -/
def maxUint64 : Nat := 2 ^ 64 - 1

/-- Smallest Go `int` (64-bit). -/
def minInt : Int := -(2 ^ 63)

/-- Largest Go `int` (64-bit). -/
def maxInt : Int := 2 ^ 63 - 1

/-- The digit loop of `strconv.ParseUint(s, 10, 64)`: every character must be
a decimal digit (otherwise a syntax error with value 0), and the running value
must stay within `uint64` (otherwise a range error with value `maxUint64`). -/
def parseUintLoop (fn s0 : String) : List Char → Nat → Nat × Option NumError
  | [], n => (n, none)
  | c :: cs, n =>
    if 48 ≤ c.toNat ∧ c.toNat ≤ 57 then
      if n ≥ maxUint64 / 10 + 1 then
        (maxUint64, some ⟨fn, s0, .ErrRange⟩)
      else
        let n1 := n * 10 + (c.toNat - 48)
        if n1 > maxUint64 then
          (maxUint64, some ⟨fn, s0, .ErrRange⟩)
        else
          parseUintLoop fn s0 cs n1
    else
      (0, some ⟨fn, s0, .ErrInvalid⟩)

/-- The call `strconv.ParseUint(s, 10, 64)` on the characters that follow the sign;
`s0` is the whole input, quoted in the error. -/
def ParseUint (fn s0 : String) (s : List Char) : Nat × Option NumError :=
  match s with
  | [] => (0, some ⟨fn, s0, .ErrInvalid⟩)
  | _ => parseUintLoop fn s0 s 0

/-- The call `strconv.ParseInt(s, 10, 0)` with the error attributed to `fn`: an
optional sign, then `ParseUint`; a value outside the 64-bit `int` range is
clamped and reported with a range error. -/
def ParseInt (fn : String) (s : String) : Int × Option NumError :=
  match s.data with
  | [] => (0, some ⟨fn, s, .ErrInvalid⟩)
  | c :: cs =>
    let neg := c == '-'
    let digits := if c == '+' ∨ c == '-' then cs else c :: cs
    match ParseUint fn s digits with
    | (un, some e) =>
      if e.Err ≠ .ErrRange then (0, some e)
      else if ¬ neg ∧ un ≥ 2 ^ 63 then (maxInt, some ⟨fn, s, .ErrRange⟩)
      else if neg ∧ un > 2 ^ 63 then (minInt, some ⟨fn, s, .ErrRange⟩)
      else (if neg then -(un : Int) else (un : Int), none)
    | (un, none) =>
      if ¬ neg ∧ un ≥ 2 ^ 63 then (maxInt, some ⟨fn, s, .ErrRange⟩)
      else if neg ∧ un > 2 ^ 63 then (minInt, some ⟨fn, s, .ErrRange⟩)
      else (if neg then -(un : Int) else (un : Int), none)

/-- The function `strconv.Atoi`, as the pair `(int, error)` it returns.  Atoi is
`ParseInt(s, 10, 0)` with the error attributed to Atoi; its fast path for
inputs shorter than 19 bytes computes the same pair. -/
def Atoi (s : String) : Int × Option NumError :=
  ParseInt "Atoi" s

/-- The digit loop of `strconv.FormatInt` in base 10 (`formatBits`): digits
are produced from the least significant one and prepended.  The first
argument bounds the number of iterations; `formatDec` passes enough. -/
def formatBitsLoop : Nat → Nat → List Char → List Char
  | 0, u, acc => Nat.digitChar (u % 10) :: acc
  | fuel + 1, u, acc =>
    if u ≥ 10 then
      formatBitsLoop fuel (u / 10) (Nat.digitChar (u - u / 10 * 10) :: acc)
    else
      Nat.digitChar u :: acc

/-- Decimal digits of a natural number, most significant first. -/
def formatDec (u : Nat) : List Char :=
  formatBitsLoop u u []

/-- The function `strconv.Itoa`: decimal text, with a leading minus sign when negative. -/
def Itoa (i : Int) : String :=
  if i < 0 then String.mk ('-' :: formatDec i.natAbs) else String.mk (formatDec i.natAbs)

/-! ## The `nrql.since_value` validator -/

/-- The `ValidateFunc` of `nrql.since_value` (source lines 74-84): the string is
converted with `strconv.Atoi`; a conversion error is appended, and then the
converted value (whatever Atoi returned) is range-checked. -/
def since_value_ValidateFunc (valueString : String) (key : String) : ValidateResult :=
  let errs : List GoError := []
  let (v, err) := Atoi valueString
  let errs :=
    match err with
    | some e => errs ++ [GoError.errorf "error converting string to int: %#v" [.numError e]]
    | none => errs
  let errs :=
    if v < 1 ∨ v > 20 then
      errs ++ [GoError.errorf "%q must be between 0 and 20 inclusive, got: %d" [.str key, .int v]]
    else errs
  ([], errs)

/-! ## Composite resource IDs -/

/-- Modelled from the spec: `serializeIDs`, the encoding half of the
"composite-ID encoding (`serializeIDs`/`parseHashedIDs`)", lives in the
helpers file of the provider, which is not among the sources.  The spec names
the pair and its purpose only; the format taken here is each ID in decimal
(`strconv.Itoa`), the parts joined with a colon. -/
def serializeIDs (ids : List Int) : String :=
  String.mk (List.intercalate [':'] (ids.map fun id => (Itoa id).data))

/-- Modelled from the spec: the conversion loop of `parseHashedIDs`, which
is not among the sources.  Every part must be an integer (`strconv.Atoi`);
the first part that is not one ends the parse with its error. -/
def parseHashedIDsLoop : List (List Char) → Except GoError (List Int)
  | [] => .ok []
  | rawID :: rest =>
    match Atoi (String.mk rawID) with
    | (_, some err) => .error (.num err)
    | (id, none) =>
      match parseHashedIDsLoop rest with
      | .error err => .error err
      | .ok ids => .ok (id :: ids)

/-- Modelled from the spec: `parseHashedIDs`, the decoding half of the
composite-ID encoding, lives in the helpers file of the provider, which is not
among the sources.  The serialized ID is split at every colon
(`strings.Split`) and each part is converted to an `int`. -/
def parseHashedIDs (serializedID : String) : Except GoError (List Int) :=
  parseHashedIDsLoop (List.splitOn ':' serializedID.data)

/-! ## Data exchanged with the remote API -/

/-- The part of `alerts.NrqlAlertCondition` (NerdGraph) the handlers touch. -/
structure NrqlAlertCondition where
  ID : String
  Name : String
deriving DecidableEq, Repr

/-- The part of `alerts.NrqlConditionInput` (NerdGraph) the handlers touch. -/
structure NrqlConditionInput where
  Name : String
deriving DecidableEq, Repr

/-- The part of `alerts.NrqlCondition` (REST) the handlers touch. -/
structure NrqlCondition where
  ID : Int
  Name : String
deriving DecidableEq, Repr

/-- The part of `alerts.Policy` (REST) the handlers touch. -/
structure Policy where
  ID : Int
  Name : String
deriving DecidableEq, Repr

/-- The `*schema.ResourceData` bag: the resource ID (`d.Id()`, `d.SetId`),
the two attributes the handlers read themselves (`policy_id`, `type`), and
the remaining attributes, which only the expand and flatten helpers use. -/
structure ResourceData where
  Id : String
  policy_id : Int
  conditionType : String
  attrs : List (String × String)
deriving DecidableEq, Repr

/-- One request to the remote alerts API, with its arguments. -/
inductive Call where
  | CreateNrqlConditionBaselineMutation (accountID : Int) (policyID : String)
      (input : NrqlConditionInput)
  | CreateNrqlConditionStaticMutation (accountID : Int) (policyID : String)
      (input : NrqlConditionInput)
  | CreateNrqlCondition (policyID : Int) (condition : NrqlCondition)
  | GetNrqlConditionQuery (accountID : Int) (conditionID : String)
  | GetPolicy (policyID : Int)
  | GetNrqlCondition (policyID : Int) (id : Int)
  | UpdateNrqlConditionBaselineMutation (accountID : Int) (conditionID : String)
      (input : NrqlConditionInput)
  | UpdateNrqlConditionStaticMutation (accountID : Int) (conditionID : String)
      (input : NrqlConditionInput)
  | UpdateNrqlCondition (condition : NrqlCondition)
  | DeleteNrqlCondition (id : Int)
deriving DecidableEq, Repr

/-- Requests that go to the NerdGraph API. -/
def Call.isNerdGraph : Call → Bool
  | .CreateNrqlConditionBaselineMutation _ _ _ => true
  | .CreateNrqlConditionStaticMutation _ _ _ => true
  | .GetNrqlConditionQuery _ _ => true
  | .UpdateNrqlConditionBaselineMutation _ _ _ => true
  | .UpdateNrqlConditionStaticMutation _ _ _ => true
  | _ => false

/-- The two NerdGraph create mutations. -/
def Call.isCreateMutation : Call → Bool
  | .CreateNrqlConditionBaselineMutation _ _ _ => true
  | .CreateNrqlConditionStaticMutation _ _ _ => true
  | _ => false

/-- The two NerdGraph update mutations. -/
def Call.isUpdateMutation : Call → Bool
  | .UpdateNrqlConditionBaselineMutation _ _ _ => true
  | .UpdateNrqlConditionStaticMutation _ _ _ => true
  | _ => false

/-- A client method returning `(*T, error)`, run against a remote side in
state `σ`: the pointer (possibly nil), the error (possibly nil), and the
remote state afterwards. -/
abbrev Remote (σ α : Type) := σ → (Option α × Option GoError) × σ

/-- The methods of `client.Alerts` used by the resource.  The client library
is an external collaborator; the handlers are verified for every behaviour
of it. -/
structure AlertsClient (σ : Type) where
  CreateNrqlConditionBaselineMutation :
    Int → String → NrqlConditionInput → Remote σ NrqlAlertCondition
  CreateNrqlConditionStaticMutation :
    Int → String → NrqlConditionInput → Remote σ NrqlAlertCondition
  CreateNrqlCondition : Int → NrqlCondition → Remote σ NrqlCondition
  GetNrqlConditionQuery : Int → String → Remote σ NrqlAlertCondition
  GetPolicy : Int → Remote σ Policy
  GetNrqlCondition : Int → Int → Remote σ NrqlCondition
  UpdateNrqlConditionBaselineMutation :
    Int → String → NrqlConditionInput → Remote σ NrqlAlertCondition
  UpdateNrqlConditionStaticMutation :
    Int → String → NrqlConditionInput → Remote σ NrqlAlertCondition
  UpdateNrqlCondition : NrqlCondition → Remote σ NrqlCondition
  DeleteNrqlCondition : Int → Remote σ NrqlCondition

/-- The `*ProviderConfig`: the client, and the answer of the method
`hasNerdGraphCredentials()`, whose body is not among the sources. -/
structure ProviderConfig (σ : Type) where
  NewClient : AlertsClient σ
  hasNerdGraphCredentials : Bool

/-- Functions of the provider that the handlers call and that are defined in
files not among the sources.  The handlers are verified for every
implementation of them. -/
structure Helpers (σ : Type) where
  serializeIDs : List Int → String
  parseHashedIDs : String → Except GoError (List Int)
  selectAccountID : ProviderConfig σ → ResourceData → Int
  expandNrqlAlertConditionInput : ResourceData → Except GoError NrqlConditionInput
  expandNrqlAlertConditionStruct : ResourceData → NrqlCondition
  flattenNrqlAlertCondition :
    Int → Option NrqlAlertCondition → ResourceData → ResourceData × Option GoError
  flattenNrqlConditionStruct :
    Option NrqlCondition → ResourceData → ResourceData × Option GoError

/-- How a handler ends: it returns an `error` (possibly nil) or it panics. -/
inductive Outcome where
  | returned (err : Option GoError)
  | panicked (msg : String)
deriving DecidableEq, Repr

/-- A finished handler run: how it ended, the resource data and the remote
state it left, and the remote requests it made, in order. -/
structure Run (σ : Type) where
  outcome : Outcome
  d : ResourceData
  st : σ
  calls : List Call

/-- Prefix a run with the requests made before it. -/
def Run.after {σ : Type} (calls : List Call) (r : Run σ) : Run σ :=
  { r with calls := calls ++ r.calls }

/-! ## The CRUD handlers -/

/-- Source lines 460-462. -/
def canUseNerdGraphNrqlAlertConditions {σ : Type} (providerConfig : ProviderConfig σ)
    (conditionType : String) : Bool :=
  providerConfig.hasNerdGraphCredentials && conditionType != "outlier"

/-- Source lines 327-384.  `d.SetId("")` and `return nil` on a NotFound
lookup, the lookup error otherwise; `ids[0]` and `ids[1]` panic when the
parsed ID has too few parts. -/
def resourceNewRelicNrqlAlertConditionRead {σ : Type} (providerConfig : ProviderConfig σ)
    (h : Helpers σ) (d : ResourceData) (st : σ) : Run σ :=
  let client := providerConfig.NewClient
  match h.parseHashedIDs d.Id with
  | .error err => ⟨.returned (some err), d, st, []⟩
  | .ok ids =>
    match ids[0]? with
    | none => ⟨.panicked "index out of range [0]", d, st, []⟩
    | some policyID =>
      match ids[1]? with
      | none => ⟨.panicked "index out of range [1]", d, st, []⟩
      | some ids1 =>
        let conditionID := Itoa ids1
        let conditionType := d.conditionType
        if canUseNerdGraphNrqlAlertConditions providerConfig conditionType then
          let accountID := h.selectAccountID providerConfig d
          let ((nrqlCondition, err), st1) := client.GetNrqlConditionQuery accountID conditionID st
          let calls := [Call.GetNrqlConditionQuery accountID conditionID]
          match err with
          | some e =>
            if e.isNotFound then ⟨.returned none, { d with Id := "" }, st1, calls⟩
            else ⟨.returned (some e), d, st1, calls⟩
          | none =>
            let (d1, ret) := h.flattenNrqlAlertCondition accountID nrqlCondition d
            ⟨.returned ret, d1, st1, calls⟩
        else
          let ((_, err), st1) := client.GetPolicy policyID st
          let calls := [Call.GetPolicy policyID]
          match err with
          | some e =>
            if e.isNotFound then ⟨.returned none, { d with Id := "" }, st1, calls⟩
            else ⟨.returned (some e), d, st1, calls⟩
          | none =>
            let id := ids1
            let ((condition, err), st2) := client.GetNrqlCondition policyID id st1
            let calls := calls ++ [Call.GetNrqlCondition policyID id]
            match err with
            | some e =>
              if e.isNotFound then ⟨.returned none, { d with Id := "" }, st2, calls⟩
              else ⟨.returned (some e), d, st2, calls⟩
            | none =>
              let d1 := { d with policy_id := policyID }
              let (d2, ret) := h.flattenNrqlConditionStruct condition d1
              ⟨.returned ret, d2, st2, calls⟩

/-- Source lines 289-300 of Create: `var nrqlCondition` starts nil; the
baseline mutation runs when the type is "baseline", then the static mutation
when the type is "static"; an error from either returns at once.  The result
is the final `nrqlCondition`, or the error returned, with the remote state
and the requests made. -/
def createDispatch {σ : Type} (client : AlertsClient σ) (conditionType : String)
    (accountID : Int) (id : String) (conditionInput : NrqlConditionInput) (st : σ) :
    Except GoError (Option NrqlAlertCondition) × σ × List Call :=
  let nrqlCondition : Option NrqlAlertCondition := none
  let (step1, st1, calls1) :=
    if conditionType == "baseline" then
      let ((r, err), st1) := client.CreateNrqlConditionBaselineMutation accountID id conditionInput st
      ((r, err), st1, [Call.CreateNrqlConditionBaselineMutation accountID id conditionInput])
    else ((nrqlCondition, none), st, [])
  match step1 with
  | (_, some err) => (.error err, st1, calls1)
  | (nrqlCondition, none) =>
    let (step2, st2, calls2) :=
      if conditionType == "static" then
        let ((r, err), st2) := client.CreateNrqlConditionStaticMutation accountID id conditionInput st1
        ((r, err), st2, calls1 ++ [Call.CreateNrqlConditionStaticMutation accountID id conditionInput])
      else ((nrqlCondition, none), st1, calls1)
    match step2 with
    | (_, some err) => (.error err, st2, calls2)
    | (nrqlCondition, none) => (.ok nrqlCondition, st2, calls2)

/-- Source lines 270-325. -/
def resourceNewRelicNrqlAlertConditionCreate {σ : Type} (providerConfig : ProviderConfig σ)
    (h : Helpers σ) (d : ResourceData) (st : σ) : Run σ :=
  let client := providerConfig.NewClient
  let policyID := d.policy_id
  let conditionType := d.conditionType
  if canUseNerdGraphNrqlAlertConditions providerConfig conditionType then
    let accountID := h.selectAccountID providerConfig d
    match h.expandNrqlAlertConditionInput d with
    | .error err => ⟨.returned (some err), d, st, []⟩
    | .ok conditionInput =>
      let id := Itoa policyID
      match createDispatch client conditionType accountID id conditionInput st with
      | (.error err, st1, calls) => ⟨.returned (some err), d, st1, calls⟩
      | (.ok nrqlCondition, st1, calls) =>
        match nrqlCondition with
        | none => ⟨.panicked "nil pointer dereference", d, st1, calls⟩
        | some c =>
          match Atoi c.ID with
          | (_, some err) => ⟨.returned (some (.num err)), d, st1, calls⟩
          | (conditionID, none) =>
            let d1 := { d with Id := h.serializeIDs [policyID, conditionID] }
            (resourceNewRelicNrqlAlertConditionRead providerConfig h d1 st1).after calls
  else
    let condition := h.expandNrqlAlertConditionStruct d
    let ((condition, err), st1) := client.CreateNrqlCondition policyID condition st
    let calls := [Call.CreateNrqlCondition policyID (h.expandNrqlAlertConditionStruct d)]
    match err with
    | some e => ⟨.returned (some e), d, st1, calls⟩
    | none =>
      match condition with
      | none => ⟨.panicked "nil pointer dereference", d, st1, calls⟩
      | some c =>
        let d1 := { d with Id := h.serializeIDs [policyID, c.ID] }
        (resourceNewRelicNrqlAlertConditionRead providerConfig h d1 st1).after calls

/-- Source lines 409-421 of Update: the baseline mutation runs when the type
is "baseline", then the static mutation when the type is "static"; an error
from either returns at once. -/
def updateDispatch {σ : Type} (client : AlertsClient σ) (conditionType : String)
    (accountID : Int) (id : String) (conditionInput : NrqlConditionInput) (st : σ) :
    Option GoError × σ × List Call :=
  let (err1, st1, calls1) :=
    if conditionType == "baseline" then
      let ((_, err), st1) := client.UpdateNrqlConditionBaselineMutation accountID id conditionInput st
      (err, st1, [Call.UpdateNrqlConditionBaselineMutation accountID id conditionInput])
    else (none, st, [])
  match err1 with
  | some err => (some err, st1, calls1)
  | none =>
    if conditionType == "static" then
      let ((_, err), st2) := client.UpdateNrqlConditionStaticMutation accountID id conditionInput st1
      (err, st2, calls1 ++ [Call.UpdateNrqlConditionStaticMutation accountID id conditionInput])
    else (none, st1, calls1)

/-- Source lines 386-438. -/
def resourceNewRelicNrqlAlertConditionUpdate {σ : Type} (providerConfig : ProviderConfig σ)
    (h : Helpers σ) (d : ResourceData) (st : σ) : Run σ :=
  let client := providerConfig.NewClient
  match h.parseHashedIDs d.Id with
  | .error err => ⟨.returned (some err), d, st, []⟩
  | .ok ids =>
    match ids[1]? with
    | none => ⟨.panicked "index out of range [1]", d, st, []⟩
    | some conditionID =>
      let conditionType := d.conditionType
      if canUseNerdGraphNrqlAlertConditions providerConfig conditionType then
        let accountID := h.selectAccountID providerConfig d
        match h.expandNrqlAlertConditionInput d with
        | .error err => ⟨.returned (some err), d, st, []⟩
        | .ok conditionInput =>
          let id := Itoa conditionID
          match updateDispatch client conditionType accountID id conditionInput st with
          | (some err, st1, calls) => ⟨.returned (some err), d, st1, calls⟩
          | (none, st1, calls) =>
            (resourceNewRelicNrqlAlertConditionRead providerConfig h d st1).after calls
      else
        let condition := h.expandNrqlAlertConditionStruct d
        let condition := { condition with ID := conditionID }
        let ((_, err), st1) := client.UpdateNrqlCondition condition st
        let calls := [Call.UpdateNrqlCondition condition]
        match err with
        | some e => ⟨.returned (some e), d, st1, calls⟩
        | none => (resourceNewRelicNrqlAlertConditionRead providerConfig h d st1).after calls

/-- Source lines 440-458. -/
def resourceNewRelicNrqlAlertConditionDelete {σ : Type} (providerConfig : ProviderConfig σ)
    (h : Helpers σ) (d : ResourceData) (st : σ) : Run σ :=
  let client := providerConfig.NewClient
  match h.parseHashedIDs d.Id with
  | .error err => ⟨.returned (some err), d, st, []⟩
  | .ok ids =>
    match ids[1]? with
    | none => ⟨.panicked "index out of range [1]", d, st, []⟩
    | some conditionID =>
      let ((_, err), st1) := client.DeleteNrqlCondition conditionID st
      let calls := [Call.DeleteNrqlCondition conditionID]
      match err with
      | some e => ⟨.returned (some e), d, st1, calls⟩
      | none => ⟨.returned none, d, st1, calls⟩

/-! ## Package strings: case folding -/

/-- The inner loop of the general case of `strings.EqualFold`,
`for r != sr && r < tr { r = unicode.SimpleFold(r) }`, started at `r`.  The
Unicode case-orbit table behind `unicode.SimpleFold` is a parameter.  The
first argument bounds the number of iterations; `none` means the bound was
reached, that is, the loop did not finish. -/
def simpleFoldLoop (SimpleFold : Nat → Nat) (sr tr : Nat) : Nat → Nat → Option Nat
  | 0, _ => none
  | fuel + 1, r =>
    if r ≠ sr ∧ r < tr then simpleFoldLoop SimpleFold sr tr fuel (SimpleFold r)
    else some r

/-- The function `strings.EqualFold` on the decoded runes of its two arguments.  Equal
runes match; otherwise the smaller rune is `sr` and the larger `tr`; when
both are ASCII only an upper-case letter and its lower-case form match;
otherwise `tr` must be reached from `sr` by `unicode.SimpleFold`.  When the
runes of one string are used up, the strings match if both are. -/
def equalFoldRunes (SimpleFold : Nat → Nat) : List Nat → List Nat → Option Bool
  | sr0 :: s, tr0 :: t =>
    if tr0 = sr0 then equalFoldRunes SimpleFold s t
    else
      let sr := if tr0 < sr0 then tr0 else sr0
      let tr := if tr0 < sr0 then sr0 else tr0
      if tr < 128 then
        if 65 ≤ sr ∧ sr ≤ 90 ∧ tr = sr + 97 - 65 then equalFoldRunes SimpleFold s t
        else some false
      else
        match simpleFoldLoop SimpleFold sr tr (tr + 2) (SimpleFold sr) with
        | none => none
        | some r => if r = tr then equalFoldRunes SimpleFold s t else some false
  | [], [] => some true
  | [], _ :: _ => some false
  | _ :: _, [] => some false

/-- The runes of a string (`Char.toNat` of each character). -/
def runes (s : String) : List Nat :=
  s.data.map Char.toNat

/-- The call `strings.EqualFold(s, t)`; `none` when a fold loop did not finish. -/
def EqualFold (SimpleFold : Nat → Nat) (s t : String) : Option Bool :=
  equalFoldRunes SimpleFold (runes s) (runes t)

/-- The documented behaviour of `unicode.SimpleFold`, for a table whose
classes of case-equivalent runes are the fibres of `cls`: the result is
equivalent to the argument; it is the smallest equivalent rune above the
argument if there is one, and the smallest equivalent rune otherwise; and on
ASCII the only equivalences are those between an upper-case letter and its
lower-case form. -/
structure SimpleFoldTable (SimpleFold : Nat → Nat) (cls : Nat → Nat) : Prop where
  equiv : ∀ r, cls (SimpleFold r) = cls r
  next : ∀ r x, cls x = cls r → r < x → r < SimpleFold r ∧ SimpleFold r ≤ x
  wrap : ∀ r, (∀ x, cls x = cls r → x ≤ r) → ∀ x, cls x = cls r → SimpleFold r ≤ x
  ascii : ∀ a b, a < b → b < 128 → (cls a = cls b ↔ 65 ≤ a ∧ a ≤ 90 ∧ b = a + 32)

/-- Equality of two strings when letter case is ignored: the same length and,
rune by rune, the same case-equivalence class. -/
def equalIgnoringCase (cls : Nat → Nat) (s t : String) : Prop :=
  (runes s).map cls = (runes t).map cls

instance (cls : Nat → Nat) (s t : String) : Decidable (equalIgnoringCase cls s t) := by
  unfold equalIgnoringCase; infer_instance

/-- The `DiffSuppressFunc` of `value_function` (source lines 221-223). -/
def value_function_DiffSuppressFunc (SimpleFold : Nat → Nat) (k old new : String)
    (d : ResourceData) : Option Bool :=
  EqualFold SimpleFold old new

/-- The `DiffSuppressFunc` of `violation_time_limit` (source lines 251-253). -/
def violation_time_limit_DiffSuppressFunc (SimpleFold : Nat → Nat) (k old new : String)
    (d : ResourceData) : Option Bool :=
  EqualFold SimpleFold old new

/-- The `DiffSuppressFunc` of `baseline_direction` (source lines 262-264). -/
def baseline_direction_DiffSuppressFunc (SimpleFold : Nat → Nat) (k old new : String)
    (d : ResourceData) : Option Bool :=
  EqualFold SimpleFold old new

/-! ## String validators and the declared conflicts of the schema -/

/-- The validator `validation.StringInSlice(valid, ignoreCase)` of the Terraform plugin SDK,
applied to a string value: no error when the value equals one of the valid
strings, or, with `ignoreCase`, when their `strings.ToLower` forms are equal.
The Unicode lower-casing behind `strings.ToLower` is a parameter. -/
def StringInSlice (ToLower : String → String) (valid : List String) (ignoreCase : Bool)
    (v : String) (k : String) : ValidateResult :=
  if valid.any (fun str => v == str || (ignoreCase && ToLower v == ToLower str)) then
    ([], [])
  else
    ([], [GoError.errorf "expected %s to be one of %v, got %s" [.str k, .strs valid, .str v]])

/-- The `ValidateFunc` of `type` (source line 54). -/
def type_ValidateFunc (ToLower : String → String) (v : String) (k : String) : ValidateResult :=
  StringInSlice ToLower ["static", "outlier", "baseline"] false v k

/-- The `ValidateFunc` of `term.operator` (source line 128). -/
def operator_ValidateFunc (ToLower : String → String) (v : String) (k : String) :
    ValidateResult :=
  StringInSlice ToLower ["above", "below", "equal"] false v k

/-- The `ValidateFunc` of `term.priority` (source line 136). -/
def priority_ValidateFunc (ToLower : String → String) (v : String) (k : String) :
    ValidateResult :=
  StringInSlice ToLower ["critical", "warning"] false v k

/-- The `ValidateFunc` of `value_function` (source line 220); this one
ignores case. -/
def value_function_ValidateFunc (ToLower : String → String) (v : String) (k : String) :
    ValidateResult :=
  StringInSlice ToLower ["single_value", "sum"] true v k

/-- The `Default` of `type` (source line 52). -/
def type_Default : String := "static"

/-- The `Default` of `term.operator` (source line 126). -/
def operator_Default : String := "equal"

/-- The `Default` of `term.priority` (source line 134). -/
def priority_Default : String := "critical"

/-- The `Default` of `value_function` (source line 218). -/
def value_function_Default : String := "single_value"

/-- The attributes of the schema that declare both a `Default` and a
`ValidateFunc`: the key, the default and the validator of each.  The only
other `Default` of the schema, `true` for `enabled`, has no validator. -/
def defaultedAttributes (ToLower : String → String) :
    List (String × String × (String → String → ValidateResult)) :=
  [ ("type", type_Default, type_ValidateFunc ToLower),
    ("term.0.operator", operator_Default, operator_ValidateFunc ToLower),
    ("term.0.priority", priority_Default, priority_ValidateFunc ToLower),
    ("value_function", value_function_Default, value_function_ValidateFunc ToLower) ]

/-- One attribute of a `schema.Resource`: its name and its `ConflictsWith`
list, as written in the source. -/
structure Attribute where
  name : String
  ConflictsWith : List String
deriving DecidableEq, Repr

/-- A top-level attribute of the resource together with the attributes of
its nested `Elem` resource (empty for a scalar attribute). -/
structure TopAttribute where
  attr : Attribute
  Elem : List Attribute
deriving DecidableEq, Repr

/-- The `Schema` map of `resourceNewRelicNrqlAlertCondition` (source lines
25-266), restricted to names and `ConflictsWith` lists. -/
def resourceSchema : List TopAttribute :=
  [ ⟨⟨"policy_id", []⟩, []⟩,
    ⟨⟨"name", []⟩, []⟩,
    ⟨⟨"runbook_url", []⟩, []⟩,
    ⟨⟨"enabled", []⟩, []⟩,
    ⟨⟨"type", []⟩, []⟩,
    ⟨⟨"nrql", []⟩,
      [ ⟨"query", []⟩,
        ⟨"since_value", ["nrql.0.evaluation_offset"]⟩,
        ⟨"evaluation_offset", ["nrql.0.since_value"]⟩ ]⟩,
    ⟨⟨"term", []⟩,
      [ ⟨"duration", ["term.0.threshold_duration"]⟩,
        ⟨"operator", []⟩,
        ⟨"priority", []⟩,
        ⟨"threshold", []⟩,
        ⟨"time_function", ["term.0.threshold_occurrences"]⟩,
        ⟨"threshold_occurrences", ["term.0.time_function"]⟩,
        ⟨"threshold_duration", ["term.0.duration"]⟩ ]⟩,
    ⟨⟨"expected_groups", []⟩, []⟩,
    ⟨⟨"ignore_overlap", []⟩, []⟩,
    ⟨⟨"violation_time_limit_seconds", ["violation_time_limit"]⟩, []⟩,
    ⟨⟨"value_function", []⟩, []⟩,
    ⟨⟨"account_id", []⟩, []⟩,
    ⟨⟨"description", []⟩, []⟩,
    ⟨⟨"violation_time_limit", ["violation_time_limit_seconds"]⟩, []⟩,
    ⟨⟨"baseline_direction", ["value_function"]⟩, []⟩ ]

/-- Every attribute under the key by which `ConflictsWith` lists address it:
a top-level attribute by its name, an attribute of a nested resource by
`<parent>.0.<name>`. -/
def attributeKeys (schema : List TopAttribute) : List (String × Attribute) :=
  schema.flatMap fun top =>
    (top.attr.name, top.attr) ::
      top.Elem.map fun a => (top.attr.name ++ ".0." ++ a.name, a)

/-- The declared conflicts: the pairs `(A, B)` such that the attribute with
key `A` lists the key `B` in its `ConflictsWith`. -/
def declaredConflicts (schema : List TopAttribute) : List (String × String) :=
  (attributeKeys schema).flatMap fun ka => ka.2.ConflictsWith.map fun b => (ka.1, b)

/-- Attribute `a` declares a conflict with attribute `b`. -/
def declaresConflict (schema : List TopAttribute) (a b : String) : Bool :=
  (declaredConflicts schema).contains (a, b)

/-! ## A concrete remote side and concrete helpers

The handlers are verified for every client and every helper implementation.
To run them on concrete inputs, this section provides an in-memory account
behind the client interface, simple implementations of the helpers, and the
part of the Unicode case-orbit table that concerns the ASCII letters. -/

/-- An in-memory alerts account: its policies, its NRQL conditions (each
with the ID of its policy), the ID the next created condition receives, and
whether the service is failing. -/
structure MemAccount where
  policies : List Policy
  conditions : List (Int × NrqlCondition)
  nextID : Int
  unavailable : Bool
deriving DecidableEq, Repr

/-- The condition with the given ID, if the account has one. -/
def MemAccount.find (acct : MemAccount) (id : Int) : Option (Int × NrqlCondition) :=
  acct.conditions.find? fun pc => pc.2.ID == id

/-- Add a condition under a policy, giving it the next free ID. -/
def MemAccount.create (acct : MemAccount) (policyID : Int) (name : String) :
    NrqlCondition × MemAccount :=
  let c : NrqlCondition := ⟨acct.nextID, name⟩
  (c, { acct with conditions := acct.conditions ++ [(policyID, c)], nextID := acct.nextID + 1 })

/-- Rename the condition with the given ID. -/
def MemAccount.rename (acct : MemAccount) (id : Int) (name : String) : MemAccount :=
  { acct with conditions := acct.conditions.map fun pc =>
      if pc.2.ID == id then (pc.1, { pc.2 with Name := name }) else pc }

/-- The error of a failing service. -/
def serviceUnavailable : GoError := .api "503 Service Unavailable"

/-- A NerdGraph create mutation on the in-memory account. -/
def memCreateMutation (_accountID : Int) (policyID : String) (input : NrqlConditionInput) :
    Remote MemAccount NrqlAlertCondition := fun acct =>
  if acct.unavailable then ((none, some serviceUnavailable), acct)
  else
    match Atoi policyID with
    | (_, some e) => ((none, some (.num e)), acct)
    | (p, none) =>
      if acct.policies.any (fun pol => pol.ID == p) then
        let (c, acct1) := acct.create p input.Name
        ((some ⟨Itoa c.ID, c.Name⟩, none), acct1)
      else ((none, some (.notFound "policy not found")), acct)

/-- A NerdGraph update mutation on the in-memory account. -/
def memUpdateMutation (_accountID : Int) (conditionID : String) (input : NrqlConditionInput) :
    Remote MemAccount NrqlAlertCondition := fun acct =>
  if acct.unavailable then ((none, some serviceUnavailable), acct)
  else
    match Atoi conditionID with
    | (_, some e) => ((none, some (.num e)), acct)
    | (id, none) =>
      match acct.find id with
      | none => ((none, some (.notFound "condition not found")), acct)
      | some _ => ((some ⟨conditionID, input.Name⟩, none), acct.rename id input.Name)

/-- The client of the in-memory account. -/
def memClient : AlertsClient MemAccount where
  CreateNrqlConditionBaselineMutation := memCreateMutation
  CreateNrqlConditionStaticMutation := memCreateMutation
  CreateNrqlCondition := fun policyID condition acct =>
    if acct.unavailable then ((none, some serviceUnavailable), acct)
    else if acct.policies.any (fun pol => pol.ID == policyID) then
      let (c, acct1) := acct.create policyID condition.Name
      ((some c, none), acct1)
    else ((none, some (.notFound "policy not found")), acct)
  GetNrqlConditionQuery := fun _accountID conditionID acct =>
    if acct.unavailable then ((none, some serviceUnavailable), acct)
    else
      match acct.conditions.find? fun pc => Itoa pc.2.ID == conditionID with
      | none => ((none, some (.notFound "condition not found")), acct)
      | some pc => ((some ⟨conditionID, pc.2.Name⟩, none), acct)
  GetPolicy := fun policyID acct =>
    if acct.unavailable then ((none, some serviceUnavailable), acct)
    else
      match acct.policies.find? fun pol => pol.ID == policyID with
      | none => ((none, some (.notFound "policy not found")), acct)
      | some pol => ((some pol, none), acct)
  GetNrqlCondition := fun policyID id acct =>
    if acct.unavailable then ((none, some serviceUnavailable), acct)
    else
      match acct.conditions.find? fun pc => pc.1 == policyID && pc.2.ID == id with
      | none => ((none, some (.notFound "condition not found")), acct)
      | some pc => ((some pc.2, none), acct)
  UpdateNrqlConditionBaselineMutation := memUpdateMutation
  UpdateNrqlConditionStaticMutation := memUpdateMutation
  UpdateNrqlCondition := fun condition acct =>
    if acct.unavailable then ((none, some serviceUnavailable), acct)
    else
      match acct.find condition.ID with
      | none => ((none, some (.notFound "condition not found")), acct)
      | some _ => ((some condition, none), acct.rename condition.ID condition.Name)
  DeleteNrqlCondition := fun id acct =>
    if acct.unavailable then ((none, some serviceUnavailable), acct)
    else
      match acct.find id with
      | none => ((none, some (.notFound "condition not found")), acct)
      | some pc =>
        ((some pc.2, none),
          { acct with conditions := acct.conditions.filter fun qc => qc.2.ID != id })

/-- The value of an attribute in the resource data, if it is set. -/
def ResourceData.attr (d : ResourceData) (key : String) : Option String :=
  (d.attrs.find? fun kv => kv.1 == key).map fun kv => kv.2

/-- Concrete helpers.  The ID helpers are the ones modelled above.  The
expand helpers read the `name` attribute; `expandNrqlAlertConditionInput`
also performs the check that the schema leaves to it (source lines
179-181): a baseline condition needs `threshold_duration` within
`[120, 3600]`.  The flatten helpers write the name back. -/
def memHelpers : Helpers MemAccount where
  serializeIDs := serializeIDs
  parseHashedIDs := parseHashedIDs
  selectAccountID := fun _ d =>
    match d.attr "account_id" with
    | some a => (Atoi a).1
    | none => 1
  expandNrqlAlertConditionInput := fun d =>
    let duration := ((d.attr "threshold_duration").map fun s => (Atoi s).1).getD 120
    if d.conditionType == "baseline" && (duration < 120 || duration > 3600) then
      .error (.errorf "baseline conditions must have threshold_duration within %d-%d, got: %d"
        [.int 120, .int 3600, .int duration])
    else .ok ⟨(d.attr "name").getD ""⟩
  expandNrqlAlertConditionStruct := fun d => ⟨0, (d.attr "name").getD ""⟩
  flattenNrqlAlertCondition := fun _ c d =>
    match c with
    | none => (d, some (.api "nil condition"))
    | some c => ({ d with attrs := ("name", c.Name) :: d.attrs.filter fun kv => kv.1 != "name" }, none)
  flattenNrqlConditionStruct := fun c d =>
    match c with
    | none => (d, some (.api "nil condition"))
    | some c => ({ d with attrs := ("name", c.Name) :: d.attrs.filter fun kv => kv.1 != "name" }, none)

/-- An account with one policy (ID 7) holding one condition (ID 42). -/
def memAccount : MemAccount :=
  { policies := [⟨7, "web"⟩], conditions := [(7, ⟨42, "errors"⟩)], nextID := 43,
    unavailable := false }

/-- A provider configured with NerdGraph credentials. -/
def nerdGraphProvider : ProviderConfig MemAccount :=
  { NewClient := memClient, hasNerdGraphCredentials := true }

/-- Resource data of a condition of the given type under policy 7, with the
given resource ID. -/
def conditionData (id conditionType : String) : ResourceData :=
  { Id := id, policy_id := 7, conditionType := conditionType, attrs := [("name", "errors")] }

/-- The orbits of `unicode.SimpleFold` that contain an ASCII letter: each
letter with its other case, where K and S have a third member outside ASCII
(the Kelvin sign U+212A and the long s U+017F).  Every other rune is left
alone. -/
def letterSimpleFold (r : Nat) : Nat :=
  if r = 75 then 107 else if r = 107 then 8490 else if r = 8490 then 75
  else if r = 83 then 115 else if r = 115 then 383 else if r = 383 then 83
  else if 65 ≤ r ∧ r ≤ 90 then r + 32
  else if 97 ≤ r ∧ r ≤ 122 then r - 32
  else r

/-- The class of a rune under `letterSimpleFold`: the lower-case letter of
its orbit. -/
def letterFoldClass (r : Nat) : Nat :=
  if r = 8490 then 107 else if r = 383 then 115
  else if 65 ≤ r ∧ r ≤ 90 then r + 32
  else r

/-! ## Facts about the integer validators -/

theorem tmod_sixty_eq_zero_iff (v : Int) : Int.tmod v 60 = 0 ↔ (60 : Int) ∣ v :=
  Int.dvd_iff_tmod_eq_zero.symm

theorem evaluation_offset_accepts_iff (v : Int) (key : String) :
    (evaluation_offset_ValidateFunc v key).2 = [] ↔ 1 ≤ v ∧ v ≤ 20 := by
  unfold evaluation_offset_ValidateFunc
  by_cases h : v < 1 ∨ v > 20
  · simp only [h, if_true, List.nil_append]
    constructor
    · intro hc; cases hc
    · intro hc; omega
  · simp only [h, if_false]
    constructor
    · intro _; omega
    · intro _; trivial

theorem threshold_duration_accepts_iff (v : Int) (key : String) :
    (threshold_duration_ValidateFunc v key).2 = [] ↔
      (60 : Int) ∣ v ∧ 120 ≤ v ∧ v ≤ 7200 := by
  unfold threshold_duration_ValidateFunc
  rw [← tmod_sixty_eq_zero_iff]
  by_cases h1 : Int.tmod v 60 = 0 <;> by_cases h2 : v < 120 ∨ v > 7200 <;>
    simp [h1, h2] <;> omega

theorem duration_accepts_iff (m : Int) (key : String) :
    (duration_ValidateFunc m key).2 = [] ↔ 1 ≤ m ∧ m ≤ 120 := by
  unfold duration_ValidateFunc IntBetween
  by_cases h : m < 1 ∨ m > 120
  · simp only [h, if_true]
    constructor
    · intro hc; cases hc
    · intro hc; omega
  · simp only [h, if_false]
    constructor
    · intro _; omega
    · intro _; trivial

/-! ## Facts about `since_value` -/

theorem since_value_accepts_iff (s key : String) :
    (since_value_ValidateFunc s key).2 = [] ↔
      (Atoi s).2 = none ∧ 1 ≤ (Atoi s).1 ∧ (Atoi s).1 ≤ 20 := by
  unfold since_value_ValidateFunc
  rcases hA : Atoi s with ⟨v, err⟩
  cases err with
  | none =>
    by_cases h : v < 1 ∨ v > 20
    · simp [h]; omega
    · simp [h]; omega
  | some e =>
    by_cases h : v < 1 ∨ v > 20 <;> simp [h]

/-! ## Facts about decimal conversion -/

theorem digitChar_toNat (d : Nat) (hd : d < 10) : (Nat.digitChar d).toNat = 48 + d := by
  interval_cases d <;> rfl

theorem formatBitsLoop_step (fuel u : Nat) (acc : List Char) (hfuel : u ≤ fuel) :
    formatBitsLoop fuel u acc =
      if u ≥ 10 then formatBitsLoop (fuel - 1) (u / 10) (Nat.digitChar (u % 10) :: acc)
      else Nat.digitChar u :: acc := by
  cases fuel with
  | zero =>
    have : u = 0 := by omega
    subst this
    simp [formatBitsLoop]
  | succ fuel =>
    simp only [formatBitsLoop, Nat.add_sub_cancel]
    have : u - u / 10 * 10 = u % 10 := by omega
    rw [this]

theorem parseUintLoop_digit (fn s0 : String) (d n : Nat) (cs : List Char) (hd : d < 10)
    (hn : n * 10 + d ≤ maxUint64) :
    parseUintLoop fn s0 (Nat.digitChar d :: cs) n = parseUintLoop fn s0 cs (n * 10 + d) := by
  have hc := digitChar_toNat d hd
  have hmax : maxUint64 = 18446744073709551615 := by decide
  conv_lhs => rw [parseUintLoop]
  rw [hc]
  rw [if_pos (by omega)]
  rw [if_neg (by omega)]
  simp only [Nat.add_sub_cancel_left]
  rw [if_neg (by omega)]

theorem parseUintLoop_format (fn s0 : String) :
    ∀ u fuel acc, u ≤ fuel → u ≤ maxUint64 →
      parseUintLoop fn s0 (formatBitsLoop fuel u acc) 0 = parseUintLoop fn s0 acc u := by
  intro u
  induction u using Nat.strong_induction_on with
  | _ u ih =>
    intro fuel acc hfuel hmax
    rw [formatBitsLoop_step fuel u acc hfuel]
    by_cases h10 : u ≥ 10
    · rw [if_pos h10]
      rw [ih (u / 10) (by omega) (fuel - 1) _ (by omega) (by omega)]
      rw [parseUintLoop_digit fn s0 (u % 10) (u / 10) acc (by omega) (by omega)]
      congr 1
      omega
    · rw [if_neg h10]
      rw [parseUintLoop_digit fn s0 u 0 acc (by omega) (by omega)]
      congr 1
      omega

theorem formatBitsLoop_chars (p : Char → Prop) (hp : ∀ d, d < 10 → p (Nat.digitChar d)) :
    ∀ u fuel acc, u ≤ fuel → (∀ c ∈ acc, p c) → ∀ c ∈ formatBitsLoop fuel u acc, p c := by
  intro u
  induction u using Nat.strong_induction_on with
  | _ u ih =>
    intro fuel acc hfuel hacc
    rw [formatBitsLoop_step fuel u acc hfuel]
    by_cases h10 : u ≥ 10
    · rw [if_pos h10]
      apply ih (u / 10) (by omega) (fuel - 1) _ (by omega)
      intro c hc
      rcases List.mem_cons.mp hc with rfl | hc
      · exact hp _ (by omega)
      · exact hacc c hc
    · rw [if_neg h10]
      intro c hc
      rcases List.mem_cons.mp hc with rfl | hc
      · exact hp _ (by omega)
      · exact hacc c hc

theorem formatDec_chars (p : Char → Prop) (hp : ∀ d, d < 10 → p (Nat.digitChar d)) (u : Nat) :
    ∀ c ∈ formatDec u, p c :=
  formatBitsLoop_chars p hp u u [] (Nat.le_refl u) (by simp)

theorem formatBitsLoop_ne_nil : ∀ fuel u acc, formatBitsLoop fuel u acc ≠ [] := by
  intro fuel
  induction fuel with
  | zero => intro u acc; simp [formatBitsLoop]
  | succ fuel ih =>
    intro u acc
    unfold formatBitsLoop
    split
    · exact ih _ _
    · simp

theorem digitChar_ne_sign (d : Nat) (hd : d < 10) :
    Nat.digitChar d ≠ '+' ∧ Nat.digitChar d ≠ '-' ∧ Nat.digitChar d ≠ ':' := by
  interval_cases d <;> decide

theorem ParseUint_formatDec (fn s0 : String) (u : Nat) (hu : u ≤ maxUint64) :
    ParseUint fn s0 (formatDec u) = (u, none) := by
  unfold ParseUint
  have hne : formatDec u ≠ [] := formatBitsLoop_ne_nil u u []
  have hparse : parseUintLoop fn s0 (formatDec u) 0 = (u, none) := by
    unfold formatDec
    rw [parseUintLoop_format fn s0 u u [] (Nat.le_refl u) hu]
    rfl
  split
  · contradiction
  · exact hparse

theorem Atoi_Itoa (i : Int) (hlo : minInt ≤ i) (hhi : i ≤ maxInt) :
    Atoi (Itoa i) = (i, none) := by
  have hmin : minInt = -9223372036854775808 := by decide
  have hmaxI : maxInt = 9223372036854775807 := by decide
  have hmaxU : maxUint64 = 18446744073709551615 := by decide
  have habs : i.natAbs ≤ maxUint64 := by omega
  unfold Atoi ParseInt Itoa
  by_cases hneg : i < 0
  · rw [if_pos hneg]
    simp only []
    have hP := ParseUint_formatDec "Atoi" (String.mk ('-' :: formatDec i.natAbs)) i.natAbs habs
    simp only [beq_self_eq_true, or_true, if_true, hP]
    have h1 : ¬ (i.natAbs > 2 ^ 63) := by omega
    simp only [gt_iff_lt, h1, and_false, not_true_eq_false, and_true, if_false, if_true,
      false_and, Nat.cast_natAbs]
    rw [abs_of_neg hneg]
    simp
  · rw [if_neg hneg]
    rcases hfd : formatDec i.natAbs with _ | ⟨c, cs⟩
    · exact absurd hfd (formatBitsLoop_ne_nil _ _ _)
    · have hc : c ≠ '+' ∧ c ≠ '-' := by
        have := formatDec_chars (fun c => c ≠ '+' ∧ c ≠ '-')
          (fun d hd => ⟨(digitChar_ne_sign d hd).1, (digitChar_ne_sign d hd).2.1⟩) i.natAbs c
          (by rw [hfd]; simp)
        exact this
      have hP := ParseUint_formatDec "Atoi" (String.mk (c :: cs)) i.natAbs habs
      rw [hfd] at hP
      simp only [beq_iff_eq, hc.1, hc.2, or_self, if_false, hP]
      have h1 : ¬ (i.natAbs ≥ 2 ^ 63) := by omega
      simp only [ge_iff_le, h1, and_false, and_true, if_false, Bool.false_eq_true,
        false_and, not_false_eq_true, Nat.cast_natAbs]
      rw [abs_of_nonneg (by omega)]
      simp

theorem Itoa_no_colon (i : Int) : ':' ∉ (Itoa i).data := by
  have hd := formatDec_chars (fun c => c ≠ ':') (fun d hd => (digitChar_ne_sign d hd).2.2) i.natAbs
  unfold Itoa
  intro hmem
  split at hmem
  · simp only [List.mem_cons] at hmem
    rcases hmem with h | h
    · exact absurd h (by decide)
    · exact hd _ h rfl
  · exact hd _ hmem rfl

/-! ## Facts about the handlers -/

theorem canUse_outlier {σ : Type} (cfg : ProviderConfig σ) :
    canUseNerdGraphNrqlAlertConditions cfg "outlier" = false := by
  simp [canUseNerdGraphNrqlAlertConditions]

theorem canUse_iff {σ : Type} (cfg : ProviderConfig σ) (t : String) :
    canUseNerdGraphNrqlAlertConditions cfg t = true ↔
      cfg.hasNerdGraphCredentials = true ∧ t ≠ "outlier" := by
  simp [canUseNerdGraphNrqlAlertConditions]

theorem read_rest_calls {σ : Type} (cfg : ProviderConfig σ) (h : Helpers σ)
    (d : ResourceData) (st : σ)
    (hc : canUseNerdGraphNrqlAlertConditions cfg d.conditionType = false) :
    ∀ c ∈ (resourceNewRelicNrqlAlertConditionRead cfg h d st).calls, c.isNerdGraph = false := by
  unfold resourceNewRelicNrqlAlertConditionRead
  simp only [hc, Bool.false_eq_true, if_false]
  intro c hcm
  repeat' split at hcm
  all_goals first
    | (simp at hcm; done)
    | (simp at hcm; rcases hcm with rfl | rfl <;> rfl)

theorem create_rest_calls {σ : Type} (cfg : ProviderConfig σ) (h : Helpers σ)
    (d : ResourceData) (st : σ)
    (hc : canUseNerdGraphNrqlAlertConditions cfg d.conditionType = false) :
    ∀ c ∈ (resourceNewRelicNrqlAlertConditionCreate cfg h d st).calls, c.isNerdGraph = false := by
  unfold resourceNewRelicNrqlAlertConditionCreate
  simp only [hc, Bool.false_eq_true, if_false]
  intro c hcm
  repeat' split at hcm
  all_goals first
    | (simp at hcm; done)
    | (simp at hcm; subst hcm; rfl)
    | (simp only [Run.after, List.mem_append, List.mem_singleton] at hcm
       rcases hcm with rfl | hcm
       · rfl
       · exact read_rest_calls cfg h _ _ (by simpa using hc) c hcm)

theorem update_rest_calls {σ : Type} (cfg : ProviderConfig σ) (h : Helpers σ)
    (d : ResourceData) (st : σ)
    (hc : canUseNerdGraphNrqlAlertConditions cfg d.conditionType = false) :
    ∀ c ∈ (resourceNewRelicNrqlAlertConditionUpdate cfg h d st).calls, c.isNerdGraph = false := by
  unfold resourceNewRelicNrqlAlertConditionUpdate
  simp only [hc, Bool.false_eq_true, if_false]
  intro c hcm
  repeat' split at hcm
  all_goals first
    | (simp at hcm; done)
    | (simp at hcm; subst hcm; rfl)
    | (simp only [Run.after, List.mem_append, List.mem_singleton] at hcm
       rcases hcm with rfl | hcm
       · rfl
       · exact read_rest_calls cfg h _ _ (by simpa using hc) c hcm)

/-! ## Facts about case folding -/

theorem simpleFoldLoop_finishes {SimpleFold cls : Nat → Nat}
    (hT : SimpleFoldTable SimpleFold cls) (sr tr : Nat) :
    ∀ fuel r, cls r = cls sr →
      (if sr < r then (tr - r) + sr + 1 else sr - r) < fuel →
      ∃ r', simpleFoldLoop SimpleFold sr tr fuel r = some r' ∧ cls r' = cls sr ∧
        (cls tr = cls sr → sr < r → r ≤ tr → r' = tr) := by
  intro fuel
  induction fuel with
  | zero => intro r _ h; omega
  | succ fuel ih =>
    intro r hr hfuel
    unfold simpleFoldLoop
    by_cases hcont : r ≠ sr ∧ r < tr
    · rw [if_pos hcont]
      obtain ⟨hne, hrt⟩ := hcont
      have hcls : cls (SimpleFold r) = cls sr := by rw [hT.equiv, hr]
      have hmeasure : (if sr < SimpleFold r then (tr - SimpleFold r) + sr + 1
          else sr - SimpleFold r) < fuel := by
        by_cases hA : sr < r
        · rw [if_pos hA] at hfuel
          by_cases hup : r < SimpleFold r
          · rw [if_pos (by omega)]; omega
          · -- wrapped around: SimpleFold r is the least rune of the class
            have hmax : ∀ x, cls x = cls r → x ≤ r := by
              intro x hx
              by_contra hxr
              exact hup (hT.next r x hx (by omega)).1
            have hle : SimpleFold r ≤ sr := hT.wrap r hmax sr hr.symm
            rw [if_neg (by omega)]; omega
        · rw [if_neg hA] at hfuel
          have hrs : r < sr := by omega
          have h2 := hT.next r sr hr.symm hrs
          rw [if_neg (by omega)]; omega
      obtain ⟨r', h1, h2, h3⟩ := ih (SimpleFold r) hcls hmeasure
      refine ⟨r', h1, h2, ?_⟩
      intro htr hsr _
      have hn := hT.next r tr (by rw [htr, hr]) hrt
      exact h3 htr (by omega) hn.2
    · rw [if_neg hcont]
      refine ⟨r, rfl, hr, ?_⟩
      intro _ hsr hle
      by_contra hne
      exact hcont ⟨by omega, by omega⟩

theorem simpleFoldLoop_spec {SimpleFold cls : Nat → Nat}
    (hT : SimpleFoldTable SimpleFold cls) (sr tr : Nat) (hlt : sr < tr) :
    ∃ r, simpleFoldLoop SimpleFold sr tr (tr + 2) (SimpleFold sr) = some r ∧
      (r = tr ↔ cls sr = cls tr) := by
  have hfuel : (if sr < SimpleFold sr then (tr - SimpleFold sr) + sr + 1
      else sr - SimpleFold sr) < tr + 2 := by
    split <;> omega
  obtain ⟨r, h1, h2, h3⟩ :=
    simpleFoldLoop_finishes hT sr tr (tr + 2) (SimpleFold sr) (hT.equiv sr) hfuel
  refine ⟨r, h1, ?_, ?_⟩
  · intro h; rw [← h, h2]
  · intro h
    have hn := hT.next sr tr h.symm hlt
    exact h3 h.symm hn.1 hn.2

theorem equalFoldRunes_spec {SimpleFold cls : Nat → Nat}
    (hT : SimpleFoldTable SimpleFold cls) :
    ∀ s t : List Nat, equalFoldRunes SimpleFold s t = some (decide (s.map cls = t.map cls)) := by
  intro s
  induction s with
  | nil =>
    intro t
    cases t with
    | nil => simp [equalFoldRunes]
    | cons b t => simp [equalFoldRunes]
  | cons a s ih =>
    intro t
    cases t with
    | nil => simp [equalFoldRunes]
    | cons b t =>
      unfold equalFoldRunes
      by_cases hab : b = a
      · subst hab
        simp [ih t]
      · rw [if_neg hab]
        -- the pair ordered as `sr < tr`
        have key : ∀ sr tr : Nat, sr < tr → (cls a = cls b ↔ cls sr = cls tr) →
            (if tr < 128 then
              if 65 ≤ sr ∧ sr ≤ 90 ∧ tr = sr + 97 - 65 then equalFoldRunes SimpleFold s t
              else some false
            else
              match simpleFoldLoop SimpleFold sr tr (tr + 2) (SimpleFold sr) with
              | none => none
              | some r => if r = tr then equalFoldRunes SimpleFold s t else some false) =
            some (decide ((a :: s).map cls = (b :: t).map cls)) := by
          intro sr tr hlt hiff
          by_cases h128 : tr < 128
          · rw [if_pos h128]
            have hasc := hT.ascii sr tr hlt h128
            by_cases hp : 65 ≤ sr ∧ sr ≤ 90 ∧ tr = sr + 97 - 65
            · rw [if_pos hp, ih t]
              have : cls a = cls b := hiff.mpr (hasc.mpr ⟨hp.1, hp.2.1, by omega⟩)
              simp [this]
            · rw [if_neg hp]
              have : ¬ cls a = cls b := by
                intro h
                have := hasc.mp (hiff.mp h)
                exact hp ⟨this.1, this.2.1, by omega⟩
              simp [this]
          · rw [if_neg h128]
            obtain ⟨r, hr, hspec⟩ := simpleFoldLoop_spec hT sr tr hlt
            rw [hr]
            by_cases hrt : r = tr
            · simp only [hrt, if_true, ih t]
              have : cls a = cls b := hiff.mpr (hspec.mp hrt)
              simp [this]
            · simp only [hrt, if_false]
              have : ¬ cls a = cls b := fun h => hrt (hspec.mpr (hiff.mp h))
              simp [this]
        by_cases hba : b < a
        · simp only [hba, if_true]
          exact key b a hba ⟨fun h => h.symm, fun h => h.symm⟩
        · simp only [hba, if_false]
          exact key a b (by omega) Iff.rfl

/-! ## Facts about the concrete fold table -/

theorem letterFoldClass_cases (r : Nat) :
    (r = 8490 ∧ letterFoldClass r = 107) ∨ (r = 383 ∧ letterFoldClass r = 115) ∨
    (65 ≤ r ∧ r ≤ 90 ∧ letterFoldClass r = r + 32) ∨
    (r ≠ 8490 ∧ r ≠ 383 ∧ (r < 65 ∨ 90 < r) ∧ letterFoldClass r = r) := by
  unfold letterFoldClass
  split_ifs <;> omega

theorem letterSimpleFold_cases (r : Nat) :
    (r = 75 ∧ letterSimpleFold r = 107) ∨ (r = 107 ∧ letterSimpleFold r = 8490) ∨
    (r = 8490 ∧ letterSimpleFold r = 75) ∨ (r = 83 ∧ letterSimpleFold r = 115) ∨
    (r = 115 ∧ letterSimpleFold r = 383) ∨ (r = 383 ∧ letterSimpleFold r = 83) ∨
    (65 ≤ r ∧ r ≤ 90 ∧ r ≠ 75 ∧ r ≠ 83 ∧ letterSimpleFold r = r + 32) ∨
    (97 ≤ r ∧ r ≤ 122 ∧ r ≠ 107 ∧ r ≠ 115 ∧ letterSimpleFold r = r - 32) ∨
    ((r < 65 ∨ (90 < r ∧ r < 97) ∨ 122 < r) ∧ r ≠ 8490 ∧ r ≠ 383 ∧ letterSimpleFold r = r) := by
  by_cases h1 : r = 75
  · subst h1; exact Or.inl ⟨rfl, rfl⟩
  by_cases h2 : r = 107
  · subst h2; exact Or.inr (Or.inl ⟨rfl, rfl⟩)
  by_cases h3 : r = 8490
  · subst h3; exact Or.inr (Or.inr (Or.inl ⟨rfl, rfl⟩))
  by_cases h4 : r = 83
  · subst h4; exact Or.inr (Or.inr (Or.inr (Or.inl ⟨rfl, rfl⟩)))
  by_cases h5 : r = 115
  · subst h5; exact Or.inr (Or.inr (Or.inr (Or.inr (Or.inl ⟨rfl, rfl⟩))))
  by_cases h6 : r = 383
  · subst h6; exact Or.inr (Or.inr (Or.inr (Or.inr (Or.inr (Or.inl ⟨rfl, rfl⟩)))))
  unfold letterSimpleFold
  rw [if_neg h1, if_neg h2, if_neg h3, if_neg h4, if_neg h5, if_neg h6]
  by_cases hu : 65 ≤ r ∧ r ≤ 90
  · rw [if_pos hu]
    exact Or.inr (Or.inr (Or.inr (Or.inr (Or.inr (Or.inr (Or.inl ⟨hu.1, hu.2, h1, h4, rfl⟩))))))
  · rw [if_neg hu]
    by_cases hl : 97 ≤ r ∧ r ≤ 122
    · rw [if_pos hl]
      exact Or.inr (Or.inr (Or.inr (Or.inr (Or.inr (Or.inr (Or.inr
        (Or.inl ⟨hl.1, hl.2, h2, h5, rfl⟩)))))))
    · rw [if_neg hl]
      exact Or.inr (Or.inr (Or.inr (Or.inr (Or.inr (Or.inr (Or.inr
        (Or.inr ⟨by omega, h3, h6, rfl⟩)))))))

theorem letterSimpleFold_table : SimpleFoldTable letterSimpleFold letterFoldClass where
  equiv := by
    intro r
    have h1 := letterSimpleFold_cases r
    have h2 := letterFoldClass_cases r
    have h3 := letterFoldClass_cases (letterSimpleFold r)
    omega
  next := by
    intro r x
    have h1 := letterSimpleFold_cases r
    have h2 := letterFoldClass_cases r
    have h3 := letterFoldClass_cases x
    omega
  wrap := by
    intro r hmax x
    have h1 := hmax 8490
    have h2 := hmax 383
    have h3 := hmax (r + 32)
    have k1 : letterFoldClass 8490 = 107 := by decide
    have k2 : letterFoldClass 383 = 115 := by decide
    rw [k1] at h1
    rw [k2] at h2
    have c1 := letterSimpleFold_cases r
    have c2 := letterFoldClass_cases r
    have c3 := letterFoldClass_cases x
    have c4 := letterFoldClass_cases (r + 32)
    omega
  ascii := by
    intro a b
    have c1 := letterFoldClass_cases a
    have c2 := letterFoldClass_cases b
    omega

/-! ## Backend selection -/

/-- C1: `canUseNerdGraphNrqlAlertConditions` is true exactly when the provider
has NerdGraph credentials and the condition type is not "outlier"; and for
resource data of type "outlier" the check is false and none of the requests
made by Create, Read or Update goes to NerdGraph, whatever the credentials,
the helpers and the remote side are. -/
theorem canUseNerdGraph_iff_and_outlier_uses_rest {σ : Type}
    (providerConfig : ProviderConfig σ) (h : Helpers σ) (conditionType : String)
    (d : ResourceData) (st : σ) (houtlier : d.conditionType = "outlier") :
    (canUseNerdGraphNrqlAlertConditions providerConfig conditionType = true ↔
      providerConfig.hasNerdGraphCredentials = true ∧ conditionType ≠ "outlier") ∧
    canUseNerdGraphNrqlAlertConditions providerConfig d.conditionType = false ∧
    (∀ c ∈ (resourceNewRelicNrqlAlertConditionCreate providerConfig h d st).calls,
      c.isNerdGraph = false) ∧
    (∀ c ∈ (resourceNewRelicNrqlAlertConditionRead providerConfig h d st).calls,
      c.isNerdGraph = false) ∧
    (∀ c ∈ (resourceNewRelicNrqlAlertConditionUpdate providerConfig h d st).calls,
      c.isNerdGraph = false) := by
  have hc : canUseNerdGraphNrqlAlertConditions providerConfig d.conditionType = false := by
    rw [houtlier]; exact canUse_outlier providerConfig
  exact ⟨canUse_iff providerConfig conditionType, hc,
    create_rest_calls providerConfig h d st hc,
    read_rest_calls providerConfig h d st hc,
    update_rest_calls providerConfig h d st hc⟩

/-- C1 at a concrete input: an "outlier" condition created by a provider that
has NerdGraph credentials; the creation request it makes is a REST request. -/
theorem canUseNerdGraph_outlier_witness :
    (conditionData "" "outlier").conditionType = "outlier" ∧
    canUseNerdGraphNrqlAlertConditions nerdGraphProvider
      (conditionData "" "outlier").conditionType = false ∧
    (Call.CreateNrqlCondition 7 ⟨0, "errors"⟩).isNerdGraph = false :=
  ⟨rfl,
    (canUseNerdGraph_iff_and_outlier_uses_rest nerdGraphProvider memHelpers "static"
      (conditionData "" "outlier") memAccount rfl).2.1,
    (canUseNerdGraph_iff_and_outlier_uses_rest nerdGraphProvider memHelpers "static"
      (conditionData "" "outlier") memAccount rfl).2.2.1
      (Call.CreateNrqlCondition 7 ⟨0, "errors"⟩) (by decide)⟩

/-! ## The integer validators -/

/-- C2: the `threshold_duration` validator returns no error exactly for the
multiples of 60 within `[120, 7200]` and at least one error for every other
integer; it never returns more than two errors, and returns two exactly when the value is both not a multiple of 60 and
outside `[120, 7200]`; zero and every negative value are rejected. -/
theorem threshold_duration_validator_errors (v : Int) (n : Nat) (key : String) :
    ((threshold_duration_ValidateFunc v key).2 = [] ↔
      (60 : Int) ∣ v ∧ 120 ≤ v ∧ v ≤ 7200) ∧
    (1 ≤ (threshold_duration_ValidateFunc v key).2.length ↔
      ¬ ((60 : Int) ∣ v ∧ 120 ≤ v ∧ v ≤ 7200)) ∧
    (threshold_duration_ValidateFunc v key).2.length ≤ 2 ∧
    ((threshold_duration_ValidateFunc v key).2.length = 2 ↔
      ¬ (60 : Int) ∣ v ∧ (v < 120 ∨ 7200 < v)) ∧
    (threshold_duration_ValidateFunc (-(n : Int)) key).2 ≠ [] := by
  refine ⟨threshold_duration_accepts_iff v key, ?_, ?_, ?_, ?_⟩
  · rw [← threshold_duration_accepts_iff v key, Nat.one_le_iff_ne_zero, ne_eq,
      List.length_eq_zero]
  · unfold threshold_duration_ValidateFunc
    by_cases h1 : Int.tmod v 60 = 0 <;> by_cases h2 : v < 120 ∨ v > 7200 <;> simp [h1, h2]
  · unfold threshold_duration_ValidateFunc
    rw [← tmod_sixty_eq_zero_iff]
    by_cases h1 : Int.tmod v 60 = 0 <;> by_cases h2 : v < 120 ∨ v > 7200 <;>
      simp [h1, h2]
  · intro hcon
    have := (threshold_duration_accepts_iff (-(n : Int)) key).mp hcon
    omega

/-- C3: at 0 the `evaluation_offset` validator returns an error, and the error
it returns is the one whose text announces the range "between 0 and 20
inclusive"; the range the validator enforces is `[1, 20]`. -/
theorem evaluation_offset_rejects_zero :
    (evaluation_offset_ValidateFunc 0 "nrql.0.evaluation_offset").2 =
      [GoError.errorf "%q must be between 0 and 20 inclusive, got: %d"
        [.str "nrql.0.evaluation_offset", .int 0]] ∧
    ∀ (v : Int) (key : String),
      (evaluation_offset_ValidateFunc v key).2 = [] ↔ 1 ≤ v ∧ v ≤ 20 :=
  ⟨by decide, evaluation_offset_accepts_iff⟩

/-- C4: the `since_value` validator returns no error for a string exactly when
`strconv.Atoi` converts it without error to an integer on which the
`evaluation_offset` validator returns no error; a string that Atoi does not
convert is rejected. -/
theorem since_value_equivalent_to_evaluation_offset (s key key2 : String) :
    ((since_value_ValidateFunc s key).2 = [] ↔
      (Atoi s).2 = none ∧ (evaluation_offset_ValidateFunc (Atoi s).1 key2).2 = []) ∧
    ((Atoi s).2 ≠ none → (since_value_ValidateFunc s key).2 ≠ []) := by
  constructor
  · rw [since_value_accepts_iff, evaluation_offset_accepts_iff]
  · intro hne hacc
    exact hne ((since_value_accepts_iff s key).mp hacc).1

/-- C4 at a concrete input: a string that is not an integer. -/
theorem since_value_rejects_text_witness :
    (Atoi "five").2 ≠ none ∧
    (since_value_ValidateFunc "five" "nrql.0.since_value").2 ≠ [] :=
  ⟨by decide,
    (since_value_equivalent_to_evaluation_offset "five" "nrql.0.since_value"
      "nrql.0.evaluation_offset").2 (by decide)⟩

/-- C5, as stated, fails at one minute: the `duration` validator accepts 1,
the `threshold_duration` validator rejects 60. -/
theorem duration_one_minute_counterexample :
    ¬ ((duration_ValidateFunc 1 "term.0.duration").2 = [] ↔
      (threshold_duration_ValidateFunc (60 * 1) "term.0.threshold_duration").2 = []) := by
  decide

/-- C5, amended: the `threshold_duration` validator accepts `60 * m` seconds
exactly when the `duration` validator accepts `m` minutes and `m` is not 1. -/
theorem threshold_duration_accepts_minutes_iff (m : Int) (key key2 : String) :
    (threshold_duration_ValidateFunc (60 * m) key2).2 = [] ↔
      (duration_ValidateFunc m key).2 = [] ∧ m ≠ 1 := by
  rw [threshold_duration_accepts_iff, duration_accepts_iff]
  constructor
  · rintro ⟨_, h1, h2⟩; omega
  · rintro ⟨⟨h1, h2⟩, h3⟩
    exact ⟨Dvd.intro m rfl, by omega, by omega⟩

/-! ## Declared conflicts -/

/-- C9: `baseline_direction` lists `value_function` in its `ConflictsWith`,
but `value_function` does not list `baseline_direction`; among the declared
conflicts of the schema this is the only one whose converse is not declared. -/
theorem value_function_conflict_not_mutual :
    declaresConflict resourceSchema "baseline_direction" "value_function" = true ∧
    declaresConflict resourceSchema "value_function" "baseline_direction" = false ∧
    (declaredConflicts resourceSchema).filter
        (fun ab => !declaresConflict resourceSchema ab.2 ab.1) =
      [("baseline_direction", "value_function")] := by
  decide

/-! ## Read and a missing remote object -/

/-- C7: when `parseHashedIDs` fails, Read returns its error, leaves the
resource data alone and makes no request.  When the ID parses into a policy
ID and a condition ID and a lookup made by Read fails with error `e`
(`GetNrqlConditionQuery` on the NerdGraph path; `GetPolicy`, or
`GetNrqlCondition` after a successful `GetPolicy`, on the REST path): if `e`
is a NotFound error, Read returns nil and sets the resource ID to the empty
string; otherwise Read returns `e` and leaves the resource data, the ID
included, unchanged. -/
theorem read_missing_remote_object {σ : Type} (providerConfig : ProviderConfig σ)
    (h : Helpers σ) (d : ResourceData) (st : σ) :
    (∀ err, h.parseHashedIDs d.Id = .error err →
      resourceNewRelicNrqlAlertConditionRead providerConfig h d st =
        ⟨.returned (some err), d, st, []⟩) ∧
    (∀ ids policyID conditionID (e : GoError),
      h.parseHashedIDs d.Id = .ok ids → ids[0]? = some policyID →
      ids[1]? = some conditionID →
      ((canUseNerdGraphNrqlAlertConditions providerConfig d.conditionType = true ∧
          (providerConfig.NewClient.GetNrqlConditionQuery
            (h.selectAccountID providerConfig d) (Itoa conditionID) st).1.2 = some e) ∨
        (canUseNerdGraphNrqlAlertConditions providerConfig d.conditionType = false ∧
          (providerConfig.NewClient.GetPolicy policyID st).1.2 = some e) ∨
        (canUseNerdGraphNrqlAlertConditions providerConfig d.conditionType = false ∧
          (providerConfig.NewClient.GetPolicy policyID st).1.2 = none ∧
          (providerConfig.NewClient.GetNrqlCondition policyID conditionID
            (providerConfig.NewClient.GetPolicy policyID st).2).1.2 = some e)) →
      (e.isNotFound = true →
        (resourceNewRelicNrqlAlertConditionRead providerConfig h d st).outcome =
            .returned none ∧
          (resourceNewRelicNrqlAlertConditionRead providerConfig h d st).d =
            { d with Id := "" }) ∧
      (e.isNotFound = false →
        (resourceNewRelicNrqlAlertConditionRead providerConfig h d st).outcome =
            .returned (some e) ∧
          (resourceNewRelicNrqlAlertConditionRead providerConfig h d st).d = d)) := by
  constructor
  · intro err herr
    unfold resourceNewRelicNrqlAlertConditionRead
    simp only [herr]
  · intro ids policyID conditionID e hids h0 h1 hfail
    unfold resourceNewRelicNrqlAlertConditionRead
    simp only [hids, h0, h1]
    rcases hfail with ⟨hcan, he⟩ | ⟨hcan, he⟩ | ⟨hcan, hp, he⟩
    · simp only [hcan, if_true, he]
      constructor
      · intro hnf; simp [hnf]
      · intro hnf; simp [hnf]
    · simp only [hcan, Bool.false_eq_true, if_false, he]
      constructor
      · intro hnf; simp [hnf]
      · intro hnf; simp [hnf]
    · simp only [hcan, Bool.false_eq_true, if_false, hp, he]
      constructor
      · intro hnf; simp [hnf]
      · intro hnf; simp [hnf]

/-- C7 at a concrete input: a condition that is gone from the account, read
over NerdGraph. -/
theorem read_missing_remote_object_witness :
    memHelpers.parseHashedIDs (conditionData "7:99" "static").Id = .ok [7, 99] ∧
    (resourceNewRelicNrqlAlertConditionRead nerdGraphProvider memHelpers
        (conditionData "7:99" "static") memAccount).outcome = .returned none ∧
    (resourceNewRelicNrqlAlertConditionRead nerdGraphProvider memHelpers
        (conditionData "7:99" "static") memAccount).d =
      { conditionData "7:99" "static" with Id := "" } :=
  ⟨by decide,
    ((read_missing_remote_object nerdGraphProvider memHelpers (conditionData "7:99" "static")
      memAccount).2 [7, 99] 7 99 (.notFound "condition not found") (by decide) (by decide)
      (by decide) (Or.inl ⟨by decide, by decide⟩)).1 (by decide)⟩

/-! ## Facts about composite IDs -/

theorem parseHashedIDsLoop_Itoa (ids : List Int)
    (hrange : ∀ id ∈ ids, minInt ≤ id ∧ id ≤ maxInt) :
    parseHashedIDsLoop (ids.map fun id => (Itoa id).data) = .ok ids := by
  induction ids with
  | nil => rfl
  | cons id rest ih =>
    have hid := hrange id (by simp)
    have hrest := ih (fun x hx => hrange x (by simp [hx]))
    simp only [List.map_cons, parseHashedIDsLoop]
    have hA : Atoi (String.mk (Itoa id).data) = (id, none) := Atoi_Itoa id hid.1 hid.2
    rw [hA]
    simp only [hrest]

theorem parseHashedIDs_serializeIDs (ids : List Int) (hne : ids ≠ [])
    (hrange : ∀ id ∈ ids, minInt ≤ id ∧ id ≤ maxInt) :
    parseHashedIDs (serializeIDs ids) = .ok ids := by
  unfold parseHashedIDs serializeIDs
  have hsplit : List.splitOn ':' (List.intercalate [':'] (ids.map fun id => (Itoa id).data)) =
      ids.map fun id => (Itoa id).data := by
    apply List.splitOn_intercalate
    · intro l hl
      obtain ⟨id, _, rfl⟩ := List.mem_map.mp hl
      exact Itoa_no_colon id
    · simpa using hne
  simp only []
  rw [hsplit]
  exact parseHashedIDsLoop_Itoa ids hrange

/-! ## The NerdGraph mutations of Create and Update -/

theorem type_ValidateFunc_accepts_iff (ToLower : String → String) (v k : String) :
    (type_ValidateFunc ToLower v k).2 = [] ↔
      v = "static" ∨ v = "outlier" ∨ v = "baseline" := by
  unfold type_ValidateFunc StringInSlice
  by_cases h : v = "static" ∨ v = "outlier" ∨ v = "baseline"
  · rcases h with rfl | rfl | rfl <;> simp
  · have h2 := h
    simp only [not_or] at h2
    simp [h2.1, h2.2.1, h2.2.2]

theorem read_calls_are_lookups {σ : Type} (cfg : ProviderConfig σ) (h : Helpers σ)
    (d : ResourceData) (st : σ) :
    ∀ c ∈ (resourceNewRelicNrqlAlertConditionRead cfg h d st).calls,
      c.isCreateMutation = false ∧ c.isUpdateMutation = false := by
  unfold resourceNewRelicNrqlAlertConditionRead
  intro c hcm
  by_cases hcan : canUseNerdGraphNrqlAlertConditions cfg d.conditionType = true
  · simp only [hcan, if_true] at hcm
    repeat' split at hcm
    all_goals first
      | (simp at hcm; done)
      | (simp at hcm; subst hcm; exact ⟨rfl, rfl⟩)
  · simp only [hcan, if_false] at hcm
    repeat' split at hcm
    all_goals first
      | (simp at hcm; done)
      | (simp at hcm; rcases hcm with rfl | rfl <;> exact ⟨rfl, rfl⟩)

theorem filter_read_calls_create {σ : Type} (cfg : ProviderConfig σ) (h : Helpers σ)
    (d : ResourceData) (st : σ) :
    (resourceNewRelicNrqlAlertConditionRead cfg h d st).calls.filter Call.isCreateMutation =
      [] := by
  rw [List.filter_eq_nil_iff]
  intro c hc
  simp [(read_calls_are_lookups cfg h d st c hc).1]

theorem filter_read_calls_update {σ : Type} (cfg : ProviderConfig σ) (h : Helpers σ)
    (d : ResourceData) (st : σ) :
    (resourceNewRelicNrqlAlertConditionRead cfg h d st).calls.filter Call.isUpdateMutation =
      [] := by
  rw [List.filter_eq_nil_iff]
  intro c hc
  simp [(read_calls_are_lookups cfg h d st c hc).2]

theorem createDispatch_baseline {σ : Type} (client : AlertsClient σ) (accountID : Int)
    (id : String) (input : NrqlConditionInput) (st : σ) :
    createDispatch client "baseline" accountID id input st =
      match client.CreateNrqlConditionBaselineMutation accountID id input st with
      | ((_, some err), st1) =>
        (.error err, st1, [Call.CreateNrqlConditionBaselineMutation accountID id input])
      | ((r, none), st1) =>
        (.ok r, st1, [Call.CreateNrqlConditionBaselineMutation accountID id input]) := by
  unfold createDispatch
  rcases hm : client.CreateNrqlConditionBaselineMutation accountID id input st with ⟨⟨r, err⟩, st1⟩
  cases err <;> simp [hm]

theorem createDispatch_static {σ : Type} (client : AlertsClient σ) (accountID : Int)
    (id : String) (input : NrqlConditionInput) (st : σ) :
    createDispatch client "static" accountID id input st =
      match client.CreateNrqlConditionStaticMutation accountID id input st with
      | ((_, some err), st1) =>
        (.error err, st1, [Call.CreateNrqlConditionStaticMutation accountID id input])
      | ((r, none), st1) =>
        (.ok r, st1, [Call.CreateNrqlConditionStaticMutation accountID id input]) := by
  unfold createDispatch
  rcases hm : client.CreateNrqlConditionStaticMutation accountID id input st with ⟨⟨r, err⟩, st1⟩
  cases err <;> simp [hm]

theorem updateDispatch_baseline {σ : Type} (client : AlertsClient σ) (accountID : Int)
    (id : String) (input : NrqlConditionInput) (st : σ) :
    updateDispatch client "baseline" accountID id input st =
      ((client.UpdateNrqlConditionBaselineMutation accountID id input st).1.2,
        (client.UpdateNrqlConditionBaselineMutation accountID id input st).2,
        [Call.UpdateNrqlConditionBaselineMutation accountID id input]) := by
  unfold updateDispatch
  rcases hm : client.UpdateNrqlConditionBaselineMutation accountID id input st with ⟨⟨r, err⟩, st1⟩
  cases err <;> simp [hm]

theorem updateDispatch_static {σ : Type} (client : AlertsClient σ) (accountID : Int)
    (id : String) (input : NrqlConditionInput) (st : σ) :
    updateDispatch client "static" accountID id input st =
      ((client.UpdateNrqlConditionStaticMutation accountID id input st).1.2,
        (client.UpdateNrqlConditionStaticMutation accountID id input st).2,
        [Call.UpdateNrqlConditionStaticMutation accountID id input]) := by
  unfold updateDispatch
  rcases hm : client.UpdateNrqlConditionStaticMutation accountID id input st with ⟨⟨r, err⟩, st1⟩
  cases err <;> simp [hm]

theorem create_filter_of_dispatch {σ : Type} (providerConfig : ProviderConfig σ)
    (h : Helpers σ) (d : ResourceData) (st : σ) (conditionInput : NrqlConditionInput)
    (call : Call) (hcall : call.isCreateMutation = true)
    (hcan : canUseNerdGraphNrqlAlertConditions providerConfig d.conditionType = true)
    (hexpand : h.expandNrqlAlertConditionInput d = .ok conditionInput)
    (hdispatch : (createDispatch providerConfig.NewClient d.conditionType
      (h.selectAccountID providerConfig d) (Itoa d.policy_id) conditionInput st).2.2 = [call]) :
    (resourceNewRelicNrqlAlertConditionCreate providerConfig h d st).calls.filter
      Call.isCreateMutation = [call] := by
  unfold resourceNewRelicNrqlAlertConditionCreate
  simp only [hcan, if_true, hexpand]
  rcases hD : createDispatch providerConfig.NewClient d.conditionType
      (h.selectAccountID providerConfig d) (Itoa d.policy_id) conditionInput st
    with ⟨res, st1, calls⟩
  rw [hD] at hdispatch
  simp only at hdispatch
  subst hdispatch
  cases res with
  | error err => simp [hcall]
  | ok nrqlCondition =>
    cases nrqlCondition with
    | none => simp [hcall]
    | some c =>
      simp only []
      rcases hA : Atoi c.ID with ⟨cid, aerr⟩
      cases aerr with
      | some e => simp [hcall]
      | none =>
        simp only [Run.after, List.filter_append, filter_read_calls_create]
        simp [hcall]

theorem update_filter_of_dispatch {σ : Type} (providerConfig : ProviderConfig σ)
    (h : Helpers σ) (d : ResourceData) (st : σ) (conditionInput : NrqlConditionInput)
    (ids : List Int) (conditionID : Int)
    (call : Call) (hcall : call.isUpdateMutation = true)
    (hcan : canUseNerdGraphNrqlAlertConditions providerConfig d.conditionType = true)
    (hexpand : h.expandNrqlAlertConditionInput d = .ok conditionInput)
    (hids : h.parseHashedIDs d.Id = .ok ids) (h1 : ids[1]? = some conditionID)
    (hdispatch : (updateDispatch providerConfig.NewClient d.conditionType
      (h.selectAccountID providerConfig d) (Itoa conditionID) conditionInput st).2.2 = [call]) :
    (resourceNewRelicNrqlAlertConditionUpdate providerConfig h d st).calls.filter
      Call.isUpdateMutation = [call] := by
  unfold resourceNewRelicNrqlAlertConditionUpdate
  simp only [hcan, if_true, hexpand, hids, h1]
  rcases hD : updateDispatch providerConfig.NewClient d.conditionType
      (h.selectAccountID providerConfig d) (Itoa conditionID) conditionInput st
    with ⟨res, st1, calls⟩
  rw [hD] at hdispatch
  simp only at hdispatch
  subst hdispatch
  cases res with
  | some err => simp [hcall]
  | none =>
    simp only [Run.after, List.filter_append, filter_read_calls_update]
    simp [hcall]

/-- C10, as stated, fails when `expandNrqlAlertConditionInput` returns an
error: a "baseline" condition (a type the validator accepts) on a provider
with NerdGraph credentials, whose `threshold_duration` of 7200 the expand
helper rejects, is created with neither mutation invoked. -/
theorem create_without_mutation_counterexample :
    (type_ValidateFunc (fun s => s) "baseline" "type").2 = [] ∧
    canUseNerdGraphNrqlAlertConditions nerdGraphProvider "baseline" = true ∧
    (resourceNewRelicNrqlAlertConditionCreate nerdGraphProvider memHelpers
        { conditionData "" "baseline" with attrs := [("threshold_duration", "7200")] }
        memAccount).calls.filter Call.isCreateMutation = [] := by
  decide

/-- C10, amended: on the NerdGraph path (the type passes the validator and
`canUseNerdGraphNrqlAlertConditions` is true), if
`expandNrqlAlertConditionInput` fails, Create (and Update, once the resource
ID parses with a condition ID at index 1) returns its error and makes no
request.  If it succeeds, then either the type is "baseline" and the baseline
mutation is the one mutation requested, or the type is "static" and the
static mutation is: in Create the `nrqlCondition` that is dereferenced is the
pointer that mutation returned without error, and the create mutations among
all requests of Create are exactly that one; in Update, once the resource ID
parses with a condition ID at index 1, the update mutations among all
requests of Update are exactly that one. -/
theorem nerdGraph_dispatch_one_mutation {σ : Type} (providerConfig : ProviderConfig σ)
    (h : Helpers σ) (d : ResourceData) (st : σ) (ToLower : String → String)
    (hvalid : (type_ValidateFunc ToLower d.conditionType "type").2 = [])
    (hcan : canUseNerdGraphNrqlAlertConditions providerConfig d.conditionType = true) :
    (∀ err, h.expandNrqlAlertConditionInput d = .error err →
      resourceNewRelicNrqlAlertConditionCreate providerConfig h d st =
          ⟨.returned (some err), d, st, []⟩ ∧
        (∀ ids conditionID, h.parseHashedIDs d.Id = .ok ids → ids[1]? = some conditionID →
          resourceNewRelicNrqlAlertConditionUpdate providerConfig h d st =
            ⟨.returned (some err), d, st, []⟩)) ∧
    (∀ conditionInput, h.expandNrqlAlertConditionInput d = .ok conditionInput →
      (d.conditionType = "baseline" ∧
        createDispatch providerConfig.NewClient d.conditionType
            (h.selectAccountID providerConfig d) (Itoa d.policy_id) conditionInput st =
          (match providerConfig.NewClient.CreateNrqlConditionBaselineMutation
              (h.selectAccountID providerConfig d) (Itoa d.policy_id) conditionInput st with
          | ((_, some err), st1) =>
            (.error err, st1, [Call.CreateNrqlConditionBaselineMutation
              (h.selectAccountID providerConfig d) (Itoa d.policy_id) conditionInput])
          | ((r, none), st1) =>
            (.ok r, st1, [Call.CreateNrqlConditionBaselineMutation
              (h.selectAccountID providerConfig d) (Itoa d.policy_id) conditionInput])) ∧
        (resourceNewRelicNrqlAlertConditionCreate providerConfig h d st).calls.filter
            Call.isCreateMutation =
          [Call.CreateNrqlConditionBaselineMutation
            (h.selectAccountID providerConfig d) (Itoa d.policy_id) conditionInput] ∧
        (∀ ids conditionID, h.parseHashedIDs d.Id = .ok ids → ids[1]? = some conditionID →
          (resourceNewRelicNrqlAlertConditionUpdate providerConfig h d st).calls.filter
              Call.isUpdateMutation =
            [Call.UpdateNrqlConditionBaselineMutation
              (h.selectAccountID providerConfig d) (Itoa conditionID) conditionInput])) ∨
      (d.conditionType = "static" ∧
        createDispatch providerConfig.NewClient d.conditionType
            (h.selectAccountID providerConfig d) (Itoa d.policy_id) conditionInput st =
          (match providerConfig.NewClient.CreateNrqlConditionStaticMutation
              (h.selectAccountID providerConfig d) (Itoa d.policy_id) conditionInput st with
          | ((_, some err), st1) =>
            (.error err, st1, [Call.CreateNrqlConditionStaticMutation
              (h.selectAccountID providerConfig d) (Itoa d.policy_id) conditionInput])
          | ((r, none), st1) =>
            (.ok r, st1, [Call.CreateNrqlConditionStaticMutation
              (h.selectAccountID providerConfig d) (Itoa d.policy_id) conditionInput])) ∧
        (resourceNewRelicNrqlAlertConditionCreate providerConfig h d st).calls.filter
            Call.isCreateMutation =
          [Call.CreateNrqlConditionStaticMutation
            (h.selectAccountID providerConfig d) (Itoa d.policy_id) conditionInput] ∧
        (∀ ids conditionID, h.parseHashedIDs d.Id = .ok ids → ids[1]? = some conditionID →
          (resourceNewRelicNrqlAlertConditionUpdate providerConfig h d st).calls.filter
              Call.isUpdateMutation =
            [Call.UpdateNrqlConditionStaticMutation
              (h.selectAccountID providerConfig d) (Itoa conditionID) conditionInput]))) := by
  constructor
  · intro err herr
    constructor
    · unfold resourceNewRelicNrqlAlertConditionCreate
      simp only [hcan, if_true, herr]
    · intro ids conditionID hids h1
      unfold resourceNewRelicNrqlAlertConditionUpdate
      simp only [hids, h1, hcan, if_true, herr]
  · intro conditionInput hexpand
    have htype := (type_ValidateFunc_accepts_iff ToLower d.conditionType "type").mp hvalid
    have hnot : d.conditionType ≠ "outlier" := ((canUse_iff providerConfig _).mp hcan).2
    rcases htype with hs | ho | hb
    · right
      have hcd := createDispatch_static providerConfig.NewClient
        (h.selectAccountID providerConfig d) (Itoa d.policy_id) conditionInput st
      rw [← hs] at hcd
      refine ⟨hs, hcd, ?_, ?_⟩
      · exact create_filter_of_dispatch providerConfig h d st conditionInput
          (Call.CreateNrqlConditionStaticMutation (h.selectAccountID providerConfig d)
            (Itoa d.policy_id) conditionInput) rfl hcan hexpand (by rw [hcd]; split <;> rfl)
      · intro ids conditionID hids h1
        exact update_filter_of_dispatch providerConfig h d st conditionInput ids conditionID
          (Call.UpdateNrqlConditionStaticMutation (h.selectAccountID providerConfig d)
            (Itoa conditionID) conditionInput) rfl hcan hexpand hids h1
          (by rw [hs, updateDispatch_static])
    · exact absurd ho hnot
    · left
      have hcd := createDispatch_baseline providerConfig.NewClient
        (h.selectAccountID providerConfig d) (Itoa d.policy_id) conditionInput st
      rw [← hb] at hcd
      refine ⟨hb, hcd, ?_, ?_⟩
      · exact create_filter_of_dispatch providerConfig h d st conditionInput
          (Call.CreateNrqlConditionBaselineMutation (h.selectAccountID providerConfig d)
            (Itoa d.policy_id) conditionInput) rfl hcan hexpand (by rw [hcd]; split <;> rfl)
      · intro ids conditionID hids h1
        exact update_filter_of_dispatch providerConfig h d st conditionInput ids conditionID
          (Call.UpdateNrqlConditionBaselineMutation (h.selectAccountID providerConfig d)
            (Itoa conditionID) conditionInput) rfl hcan hexpand hids h1
          (by rw [hb, updateDispatch_baseline])

/-- C10 at a concrete input: a "static" condition created over NerdGraph. -/
theorem nerdGraph_dispatch_one_mutation_witness :
    (type_ValidateFunc (fun s => s) (conditionData "" "static").conditionType "type").2 = [] ∧
    canUseNerdGraphNrqlAlertConditions nerdGraphProvider
      (conditionData "" "static").conditionType = true ∧
    (resourceNewRelicNrqlAlertConditionCreate nerdGraphProvider memHelpers
        (conditionData "" "static") memAccount).calls.filter Call.isCreateMutation =
      [Call.CreateNrqlConditionStaticMutation
        (memHelpers.selectAccountID nerdGraphProvider (conditionData "" "static"))
        (Itoa (conditionData "" "static").policy_id) ⟨"errors"⟩] :=
  ⟨by decide, by decide,
    ((nerdGraph_dispatch_one_mutation nerdGraphProvider memHelpers (conditionData "" "static")
      memAccount (fun s => s) (by decide) (by decide)).2 ⟨"errors"⟩ (by decide)).elim
      (fun hb => absurd hb.1 (by decide)) (fun hs => hs.2.2.1)⟩

/-! ## Case-insensitive diffing -/

theorem EqualFold_spec {SimpleFold cls : Nat → Nat} (hT : SimpleFoldTable SimpleFold cls)
    (s t : String) :
    EqualFold SimpleFold s t = some (decide (equalIgnoringCase cls s t)) := by
  unfold EqualFold equalIgnoringCase
  exact equalFoldRunes_spec hT (runes s) (runes t)

theorem EqualFold_sum_single_value (SimpleFold : Nat → Nat) :
    EqualFold SimpleFold "sum" "single_value" = some false := by
  rfl

/-- C6: for a case-folding table that behaves as `unicode.SimpleFold` is
documented to, each of the three `DiffSuppressFunc`s (of `value_function`,
`violation_time_limit` and `baseline_direction`) returns, for every key and
resource data, true when `old` and `new` are equal with letter case ignored
and false when they are not; so its result does not depend on the key or the
data, the relation it decides is reflexive, symmetric and transitive, and a
diff between "sum" and "single_value" is not suppressed. -/
theorem diff_suppress_case_insensitive (SimpleFold cls : Nat → Nat)
    (hT : SimpleFoldTable SimpleFold cls) :
    ∀ f ∈ [value_function_DiffSuppressFunc SimpleFold,
        violation_time_limit_DiffSuppressFunc SimpleFold,
        baseline_direction_DiffSuppressFunc SimpleFold],
      (∀ (k old new : String) (d : ResourceData),
        f k old new d = some (decide (equalIgnoringCase cls old new))) ∧
      (∀ (k k2 old new : String) (d d2 : ResourceData), f k old new d = f k2 old new d2) ∧
      (∀ (k s : String) (d : ResourceData), f k s s d = some true) ∧
      (∀ (k s t : String) (d : ResourceData),
        f k s t d = some true → f k t s d = some true) ∧
      (∀ (k s t u : String) (d : ResourceData),
        f k s t d = some true → f k t u d = some true → f k s u d = some true) ∧
      (∀ (k : String) (d : ResourceData), f k "sum" "single_value" d = some false) := by
  intro f hf
  have hspec : ∀ (k old new : String) (d : ResourceData),
      f k old new d = some (decide (equalIgnoringCase cls old new)) := by
    intro k old new d
    simp only [List.mem_cons, List.mem_singleton, List.not_mem_nil, or_false] at hf
    rcases hf with rfl | rfl | rfl
    · exact EqualFold_spec hT old new
    · exact EqualFold_spec hT old new
    · exact EqualFold_spec hT old new
  have htrue : ∀ (k s t : String) (d : ResourceData),
      f k s t d = some true ↔ equalIgnoringCase cls s t := by
    intro k s t d
    rw [hspec]
    simp
  refine ⟨hspec, ?_, ?_, ?_, ?_, ?_⟩
  · intro k k2 old new d d2
    rw [hspec, hspec]
  · intro k s d
    exact (htrue k s s d).mpr rfl
  · intro k s t d hst
    exact (htrue k t s d).mpr ((htrue k s t d).mp hst).symm
  · intro k s t u d hst htu
    exact (htrue k s u d).mpr (((htrue k s t d).mp hst).trans ((htrue k t u d).mp htu))
  · intro k d
    simp only [List.mem_cons, List.mem_singleton, List.not_mem_nil, or_false] at hf
    rcases hf with rfl | rfl | rfl <;> exact EqualFold_sum_single_value SimpleFold

/-- C6 at a concrete table, the case orbits of the ASCII letters: a change of
`value_function` from "SUM" to "sum" is suppressed. -/
theorem diff_suppress_case_insensitive_witness :
    SimpleFoldTable letterSimpleFold letterFoldClass ∧
    value_function_DiffSuppressFunc letterSimpleFold "value_function" "SUM" "sum"
        (conditionData "7:42" "static") =
      some (decide (equalIgnoringCase letterFoldClass "SUM" "sum")) ∧
    equalIgnoringCase letterFoldClass "SUM" "sum" :=
  ⟨letterSimpleFold_table,
    (diff_suppress_case_insensitive letterSimpleFold letterFoldClass letterSimpleFold_table
      (value_function_DiffSuppressFunc letterSimpleFold) (by simp)).1
      "value_function" "SUM" "sum" (conditionData "7:42" "static"),
    by decide⟩

/-! ## Defaults and their validators -/

/-- C11: each default value declared in the schema passes the validator of
its own attribute: "static" for `type`, "equal" for `term.operator`,
"critical" for `term.priority` and "single_value" for `value_function` give
no warning and no error, under any key and whatever lower-casing
`strings.ToLower` performs; so every attribute that declares both a default
and a validator accepts its default. -/
theorem defaults_pass_their_validators (ToLower : String → String) (k : String) :
    type_ValidateFunc ToLower type_Default k = ([], []) ∧
    operator_ValidateFunc ToLower operator_Default k = ([], []) ∧
    priority_ValidateFunc ToLower priority_Default k = ([], []) ∧
    value_function_ValidateFunc ToLower value_function_Default k = ([], []) ∧
    (defaultedAttributes ToLower).all (fun a => decide ((a.2.2 a.2.1 a.1).2 = [])) = true := by
  have h1 : type_ValidateFunc ToLower type_Default k = ([], []) := by
    simp [type_ValidateFunc, type_Default, StringInSlice]
  have h2 : operator_ValidateFunc ToLower operator_Default k = ([], []) := by
    simp [operator_ValidateFunc, operator_Default, StringInSlice]
  have h3 : priority_ValidateFunc ToLower priority_Default k = ([], []) := by
    simp [priority_ValidateFunc, priority_Default, StringInSlice]
  have h4 : value_function_ValidateFunc ToLower value_function_Default k = ([], []) := by
    simp [value_function_ValidateFunc, value_function_Default, StringInSlice]
  refine ⟨h1, h2, h3, h4, ?_⟩
  simp [defaultedAttributes, type_ValidateFunc, type_Default, operator_ValidateFunc,
    operator_Default, priority_ValidateFunc, priority_Default, value_function_ValidateFunc,
    value_function_Default, StringInSlice]

/-! ## Composite IDs across the handlers -/

theorem Atoi_range (s : String) (v : Int) (hA : Atoi s = (v, none)) :
    minInt ≤ v ∧ v ≤ maxInt := by
  have hmin : minInt = -9223372036854775808 := by decide
  have hmaxI : maxInt = 9223372036854775807 := by decide
  unfold Atoi ParseInt at hA
  cases hd : s.data with
  | nil => rw [hd] at hA; simp at hA
  | cons c cs =>
    rw [hd] at hA
    simp only [] at hA
    rcases hP : ParseUint "Atoi" s (if c == '+' ∨ c == '-' then cs else c :: cs)
      with ⟨un, err⟩
    rw [hP] at hA
    have hfin : ∀ (neg : Bool) (w : Int),
        ¬ (¬ neg = true ∧ un ≥ 2 ^ 63) → ¬ (neg = true ∧ un > 2 ^ 63) →
        (if neg = true then -(un : Int) else (un : Int)) = w → minInt ≤ w ∧ w ≤ maxInt := by
      intro neg w h1 h2 hw
      cases neg
      · simp at h1 hw
        omega
      · simp at h2 hw
        omega
    cases err with
    | some e =>
      simp only [] at hA
      split_ifs at hA with k1 k2 k3 k4
      · simp at hA
      · simp at hA
      · simp at hA
      · simp only [Prod.mk.injEq, and_true] at hA
        exact hfin (c == '-') v k2 k3 (by rw [if_pos k4]; exact hA)
      · simp only [Prod.mk.injEq, and_true] at hA
        exact hfin (c == '-') v k2 k3 (by rw [if_neg k4]; exact hA)
    | none =>
      simp only [] at hA
      split_ifs at hA with k2 k3 k4
      · simp at hA
      · simp at hA
      · simp only [Prod.mk.injEq, and_true] at hA
        exact hfin (c == '-') v k2 k3 (by rw [if_pos k4]; exact hA)
      · simp only [Prod.mk.injEq, and_true] at hA
        exact hfin (c == '-') v k2 k3 (by rw [if_neg k4]; exact hA)

theorem read_keeps_or_clears_id {σ : Type} (cfg : ProviderConfig σ) (h : Helpers σ)
    (hflat1 : ∀ a x d0, (h.flattenNrqlAlertCondition a x d0).1.Id = d0.Id)
    (hflat2 : ∀ x d0, (h.flattenNrqlConditionStruct x d0).1.Id = d0.Id)
    (d : ResourceData) (st : σ) :
    (resourceNewRelicNrqlAlertConditionRead cfg h d st).d.Id = d.Id ∨
      (resourceNewRelicNrqlAlertConditionRead cfg h d st).d.Id = "" := by
  unfold resourceNewRelicNrqlAlertConditionRead
  rcases hP : h.parseHashedIDs d.Id with e | ids
  · simp only []
    left; trivial
  rcases h0 : ids[0]? with _ | p
  · simp only [h0]
    left; trivial
  rcases h1 : ids[1]? with _ | c
  · simp only [h0, h1]
    left; trivial
  simp only [h0, h1]
  repeat' split
  all_goals first
    | (left; rfl)
    | (right; rfl)
    | (left; exact hflat1 _ _ _)
    | (left; exact hflat2 _ _)

theorem create_rest_stores_id {σ : Type} (cfg : ProviderConfig σ) (h : Helpers σ)
    (d : ResourceData) (st st1 : σ) (cnd : NrqlCondition)
    (hcan : canUseNerdGraphNrqlAlertConditions cfg d.conditionType = false)
    (hcreate : cfg.NewClient.CreateNrqlCondition d.policy_id
      (h.expandNrqlAlertConditionStruct d) st = ((some cnd, none), st1)) :
    resourceNewRelicNrqlAlertConditionCreate cfg h d st =
      (resourceNewRelicNrqlAlertConditionRead cfg h
        { d with Id := h.serializeIDs [d.policy_id, cnd.ID] } st1).after
        [Call.CreateNrqlCondition d.policy_id (h.expandNrqlAlertConditionStruct d)] := by
  unfold resourceNewRelicNrqlAlertConditionCreate
  simp only [hcan, Bool.false_eq_true, if_false, hcreate]

theorem create_nerdGraph_stores_id {σ : Type} (cfg : ProviderConfig σ) (h : Helpers σ)
    (d : ResourceData) (st st1 : σ) (input : NrqlConditionInput) (cnd : NrqlAlertCondition)
    (calls : List Call) (cid : Int)
    (hcan : canUseNerdGraphNrqlAlertConditions cfg d.conditionType = true)
    (hexpand : h.expandNrqlAlertConditionInput d = .ok input)
    (hdispatch : createDispatch cfg.NewClient d.conditionType (h.selectAccountID cfg d)
      (Itoa d.policy_id) input st = (.ok (some cnd), st1, calls))
    (hatoi : Atoi cnd.ID = (cid, none)) :
    resourceNewRelicNrqlAlertConditionCreate cfg h d st =
      (resourceNewRelicNrqlAlertConditionRead cfg h
        { d with Id := h.serializeIDs [d.policy_id, cid] } st1).after calls := by
  unfold resourceNewRelicNrqlAlertConditionCreate
  simp only [hcan, if_true, hexpand, hdispatch, hatoi]

theorem create_success_runs_read {σ : Type} (cfg : ProviderConfig σ) (h : Helpers σ)
    (d : ResourceData) (st : σ)
    (hok : (resourceNewRelicNrqlAlertConditionCreate cfg h d st).outcome = .returned none) :
    ∃ cid st1 calls,
      resourceNewRelicNrqlAlertConditionCreate cfg h d st =
        (resourceNewRelicNrqlAlertConditionRead cfg h
          { d with Id := h.serializeIDs [d.policy_id, cid] } st1).after calls ∧
      ((canUseNerdGraphNrqlAlertConditions cfg d.conditionType = false ∧
          ∃ cnd, cfg.NewClient.CreateNrqlCondition d.policy_id
            (h.expandNrqlAlertConditionStruct d) st = ((some cnd, none), st1) ∧
            cid = cnd.ID) ∨
        (canUseNerdGraphNrqlAlertConditions cfg d.conditionType = true ∧
          ∃ input cnd, h.expandNrqlAlertConditionInput d = .ok input ∧
            createDispatch cfg.NewClient d.conditionType (h.selectAccountID cfg d)
              (Itoa d.policy_id) input st = (.ok (some cnd), st1, calls) ∧
            Atoi cnd.ID = (cid, none) ∧ minInt ≤ cid ∧ cid ≤ maxInt)) := by
  cases hcan : canUseNerdGraphNrqlAlertConditions cfg d.conditionType with
  | false =>
    rcases hC : cfg.NewClient.CreateNrqlCondition d.policy_id
        (h.expandNrqlAlertConditionStruct d) st with ⟨⟨ptr, err⟩, st1⟩
    cases err with
    | some e =>
      unfold resourceNewRelicNrqlAlertConditionCreate at hok
      simp [hcan, hC] at hok
    | none =>
      cases ptr with
      | none =>
        unfold resourceNewRelicNrqlAlertConditionCreate at hok
        simp [hcan, hC] at hok
      | some cnd =>
        exact ⟨cnd.ID, st1, _, create_rest_stores_id cfg h d st st1 cnd hcan hC,
          Or.inl ⟨rfl, cnd, rfl, rfl⟩⟩
  | true =>
    rcases hE : h.expandNrqlAlertConditionInput d with e | input
    · unfold resourceNewRelicNrqlAlertConditionCreate at hok
      simp [hcan, hE] at hok
    rcases hD : createDispatch cfg.NewClient d.conditionType (h.selectAccountID cfg d)
        (Itoa d.policy_id) input st with ⟨res, st1, calls⟩
    rcases res with e | ptr
    · unfold resourceNewRelicNrqlAlertConditionCreate at hok
      simp [hcan, hE, hD] at hok
    rcases ptr with _ | cnd
    · unfold resourceNewRelicNrqlAlertConditionCreate at hok
      simp [hcan, hE, hD] at hok
    rcases hA : Atoi cnd.ID with ⟨cid, aerr⟩
    rcases aerr with _ | ae
    · exact ⟨cid, st1, calls,
        create_nerdGraph_stores_id cfg h d st st1 input cnd calls cid hcan hE hD hA,
        Or.inr ⟨rfl, input, cnd, rfl, hD, hA, Atoi_range cnd.ID cid hA⟩⟩
    · unfold resourceNewRelicNrqlAlertConditionCreate at hok
      simp [hcan, hE, hD, hA] at hok

theorem read_calls_of_ids {σ : Type} (cfg : ProviderConfig σ) (h : Helpers σ)
    (d : ResourceData) (st : σ) (p c : Int)
    (hids : h.parseHashedIDs d.Id = .ok [p, c]) :
    (canUseNerdGraphNrqlAlertConditions cfg d.conditionType = true →
      (resourceNewRelicNrqlAlertConditionRead cfg h d st).calls =
        [Call.GetNrqlConditionQuery (h.selectAccountID cfg d) (Itoa c)]) ∧
    (canUseNerdGraphNrqlAlertConditions cfg d.conditionType = false →
      (∀ e, (cfg.NewClient.GetPolicy p st).1.2 = some e →
        (resourceNewRelicNrqlAlertConditionRead cfg h d st).calls = [Call.GetPolicy p]) ∧
      ((cfg.NewClient.GetPolicy p st).1.2 = none →
        (resourceNewRelicNrqlAlertConditionRead cfg h d st).calls =
          [Call.GetPolicy p, Call.GetNrqlCondition p c])) := by
  have h0 : ([p, c] : List Int)[0]? = some p := rfl
  have h1 : ([p, c] : List Int)[1]? = some c := rfl
  refine ⟨?_, ?_⟩
  · intro hcan
    unfold resourceNewRelicNrqlAlertConditionRead
    simp only [hids, h0, h1, hcan, if_true]
    repeat' split
    all_goals rfl
  · intro hcan
    refine ⟨?_, ?_⟩
    · intro e he
      unfold resourceNewRelicNrqlAlertConditionRead
      simp only [hids, h0, h1, hcan, Bool.false_eq_true, if_false, he]
      repeat' split
      all_goals rfl
    · intro he
      unfold resourceNewRelicNrqlAlertConditionRead
      simp only [hids, h0, h1, hcan, Bool.false_eq_true, if_false, he]
      repeat' split
      all_goals rfl

theorem update_first_call_of_ids {σ : Type} (cfg : ProviderConfig σ) (h : Helpers σ)
    (d : ResourceData) (st : σ) (p c : Int)
    (hids : h.parseHashedIDs d.Id = .ok [p, c]) :
    (canUseNerdGraphNrqlAlertConditions cfg d.conditionType = false →
      (resourceNewRelicNrqlAlertConditionUpdate cfg h d st).calls.head? =
        some (Call.UpdateNrqlCondition
          { h.expandNrqlAlertConditionStruct d with ID := c })) ∧
    (canUseNerdGraphNrqlAlertConditions cfg d.conditionType = true →
      ∀ input, h.expandNrqlAlertConditionInput d = .ok input →
        (d.conditionType = "baseline" →
          (resourceNewRelicNrqlAlertConditionUpdate cfg h d st).calls.head? =
            some (Call.UpdateNrqlConditionBaselineMutation (h.selectAccountID cfg d)
              (Itoa c) input)) ∧
        (d.conditionType = "static" →
          (resourceNewRelicNrqlAlertConditionUpdate cfg h d st).calls.head? =
            some (Call.UpdateNrqlConditionStaticMutation (h.selectAccountID cfg d)
              (Itoa c) input))) := by
  have h1 : ([p, c] : List Int)[1]? = some c := rfl
  refine ⟨?_, ?_⟩
  · intro hcan
    unfold resourceNewRelicNrqlAlertConditionUpdate
    simp only [hids, h1, hcan, Bool.false_eq_true, if_false]
    repeat' split
    all_goals rfl
  · intro hcan input hexpand
    refine ⟨?_, ?_⟩
    · intro hb
      unfold resourceNewRelicNrqlAlertConditionUpdate
      simp only [hids, h1, hcan, if_true, hexpand, hb, updateDispatch_baseline]
      repeat' split
      all_goals first
        | rfl
        | (rename_i heq
           simp only [Prod.mk.injEq] at heq
           obtain ⟨_, _, hcalls⟩ := heq
           subst hcalls
           simp [Run.after])
        | simp_all
    · intro hs
      unfold resourceNewRelicNrqlAlertConditionUpdate
      simp only [hids, h1, hcan, if_true, hexpand, hs, updateDispatch_static]
      repeat' split
      all_goals first
        | rfl
        | (rename_i heq
           simp only [Prod.mk.injEq] at heq
           obtain ⟨_, _, hcalls⟩ := heq
           subst hcalls
           simp [Run.after])
        | simp_all

/-- C8: for a policy ID `p` and a condition ID `c` (Go `int` values),
`parseHashedIDs (serializeIDs [p, c])` succeeds with exactly `[p, c]`.
A Create that returns nil has stored `serializeIDs [policy_id, cid]` as the
resource ID, where `cid` is the ID of the condition the remote side returned
(converted with `strconv.Atoi` on the NerdGraph path, hence a Go `int`), and
has then run Read on the data holding that ID; the stored ID parses back to
`[policy_id, cid]`; and if the flatten helpers leave the resource ID alone,
the ID that Create leaves is that stored ID, or empty when Read found the
condition gone.  A later handler whose resource ID is `serializeIDs [p, c]`
finds `p` at index 0 and `c` at index 1: Read, Update and Delete never
panic; Delete requests the deletion of condition `c`; Read looks up
condition `c` over NerdGraph, or policy `p` and then condition `c` of policy
`p` over REST; and the first request of Update is the update of condition
`c`. -/
theorem composite_id_round_trip {σ : Type} (providerConfig : ProviderConfig σ)
    (h : Helpers σ) (d0 d : ResourceData) (st : σ) (p c : Int)
    (hp : minInt ≤ p ∧ p ≤ maxInt) (hc : minInt ≤ c ∧ c ≤ maxInt)
    (hser : h.serializeIDs = serializeIDs) (hparse : h.parseHashedIDs = parseHashedIDs)
    (hid : d.Id = serializeIDs [p, c]) :
    parseHashedIDs (serializeIDs [p, c]) = .ok [p, c] ∧
    ((resourceNewRelicNrqlAlertConditionCreate providerConfig h d0 st).outcome =
        .returned none →
      ∃ cid st1 calls,
        resourceNewRelicNrqlAlertConditionCreate providerConfig h d0 st =
          (resourceNewRelicNrqlAlertConditionRead providerConfig h
            { d0 with Id := serializeIDs [d0.policy_id, cid] } st1).after calls ∧
        ((canUseNerdGraphNrqlAlertConditions providerConfig d0.conditionType = false ∧
            ∃ cnd, providerConfig.NewClient.CreateNrqlCondition d0.policy_id
              (h.expandNrqlAlertConditionStruct d0) st = ((some cnd, none), st1) ∧
              cid = cnd.ID) ∨
          (canUseNerdGraphNrqlAlertConditions providerConfig d0.conditionType = true ∧
            ∃ input cnd, h.expandNrqlAlertConditionInput d0 = .ok input ∧
              createDispatch providerConfig.NewClient d0.conditionType
                (h.selectAccountID providerConfig d0) (Itoa d0.policy_id) input st =
                  (.ok (some cnd), st1, calls) ∧
              Atoi cnd.ID = (cid, none) ∧ minInt ≤ cid ∧ cid ≤ maxInt)) ∧
        (minInt ≤ d0.policy_id ∧ d0.policy_id ≤ maxInt → minInt ≤ cid ∧ cid ≤ maxInt →
          h.parseHashedIDs (serializeIDs [d0.policy_id, cid]) = .ok [d0.policy_id, cid]) ∧
        ((∀ a x d1, (h.flattenNrqlAlertCondition a x d1).1.Id = d1.Id) →
          (∀ x d1, (h.flattenNrqlConditionStruct x d1).1.Id = d1.Id) →
            (resourceNewRelicNrqlAlertConditionCreate providerConfig h d0 st).d.Id =
                serializeIDs [d0.policy_id, cid] ∨
              (resourceNewRelicNrqlAlertConditionCreate providerConfig h d0 st).d.Id = "")) ∧
    (∀ msg, (resourceNewRelicNrqlAlertConditionRead providerConfig h d st).outcome ≠
      .panicked msg) ∧
    (∀ msg, (resourceNewRelicNrqlAlertConditionUpdate providerConfig h d st).outcome ≠
      .panicked msg) ∧
    (∀ msg, (resourceNewRelicNrqlAlertConditionDelete providerConfig h d st).outcome ≠
      .panicked msg) ∧
    (resourceNewRelicNrqlAlertConditionDelete providerConfig h d st).calls =
      [Call.DeleteNrqlCondition c] ∧
    (resourceNewRelicNrqlAlertConditionRead providerConfig h d st).calls.head? =
      some (if canUseNerdGraphNrqlAlertConditions providerConfig d.conditionType then
        Call.GetNrqlConditionQuery (h.selectAccountID providerConfig d) (Itoa c)
      else Call.GetPolicy p) ∧
    (canUseNerdGraphNrqlAlertConditions providerConfig d.conditionType = true →
      (resourceNewRelicNrqlAlertConditionRead providerConfig h d st).calls =
        [Call.GetNrqlConditionQuery (h.selectAccountID providerConfig d) (Itoa c)]) ∧
    (canUseNerdGraphNrqlAlertConditions providerConfig d.conditionType = false →
      (∀ e, (providerConfig.NewClient.GetPolicy p st).1.2 = some e →
        (resourceNewRelicNrqlAlertConditionRead providerConfig h d st).calls =
          [Call.GetPolicy p]) ∧
      ((providerConfig.NewClient.GetPolicy p st).1.2 = none →
        (resourceNewRelicNrqlAlertConditionRead providerConfig h d st).calls =
          [Call.GetPolicy p, Call.GetNrqlCondition p c])) ∧
    (canUseNerdGraphNrqlAlertConditions providerConfig d.conditionType = false →
      (resourceNewRelicNrqlAlertConditionUpdate providerConfig h d st).calls.head? =
        some (Call.UpdateNrqlCondition
          { h.expandNrqlAlertConditionStruct d with ID := c })) ∧
    (canUseNerdGraphNrqlAlertConditions providerConfig d.conditionType = true →
      ∀ input, h.expandNrqlAlertConditionInput d = .ok input →
        (d.conditionType = "baseline" →
          (resourceNewRelicNrqlAlertConditionUpdate providerConfig h d st).calls.head? =
            some (Call.UpdateNrqlConditionBaselineMutation
              (h.selectAccountID providerConfig d) (Itoa c) input)) ∧
        (d.conditionType = "static" →
          (resourceNewRelicNrqlAlertConditionUpdate providerConfig h d st).calls.head? =
            some (Call.UpdateNrqlConditionStaticMutation
              (h.selectAccountID providerConfig d) (Itoa c) input))) := by
  have hpair : ∀ a b : Int, (minInt ≤ a ∧ a ≤ maxInt) → (minInt ≤ b ∧ b ≤ maxInt) →
      parseHashedIDs (serializeIDs [a, b]) = .ok [a, b] := by
    intro a b ha hb
    apply parseHashedIDs_serializeIDs [a, b] (by simp)
    intro id hmem
    simp only [List.mem_cons, List.mem_singleton, List.not_mem_nil, or_false] at hmem
    rcases hmem with rfl | rfl
    · exact ha
    · exact hb
  have hrt := hpair p c hp hc
  have hids : h.parseHashedIDs d.Id = .ok [p, c] := by rw [hparse, hid, hrt]
  have h0 : ([p, c] : List Int)[0]? = some p := rfl
  have h1 : ([p, c] : List Int)[1]? = some c := rfl
  have hread : ∀ (st1 : σ) (msg : String),
      (resourceNewRelicNrqlAlertConditionRead providerConfig h d st1).outcome ≠
        .panicked msg := by
    intro st1 msg
    unfold resourceNewRelicNrqlAlertConditionRead
    simp only [hids, h0, h1]
    repeat' split
    all_goals simp
  have hrc := read_calls_of_ids providerConfig h d st p c hids
  have huc := update_first_call_of_ids providerConfig h d st p c hids
  refine ⟨hrt, ?_, hread st, ?_, ?_, ?_, ?_, hrc.1, hrc.2, huc.1, huc.2⟩
  · intro hok
    obtain ⟨cid, st1, calls, hrun, hfrom⟩ :=
      create_success_runs_read providerConfig h d0 st hok
    rw [hser] at hrun
    refine ⟨cid, st1, calls, hrun, hfrom, ?_, ?_⟩
    · intro hpol hcid
      rw [hparse]
      exact hpair d0.policy_id cid hpol hcid
    · intro hflat1 hflat2
      rw [hrun]
      exact read_keeps_or_clears_id providerConfig h hflat1 hflat2
        { d0 with Id := serializeIDs [d0.policy_id, cid] } st1
  · intro msg
    unfold resourceNewRelicNrqlAlertConditionUpdate
    simp only [hids, h1]
    repeat' split
    all_goals first
      | exact hread _ msg
      | simp
  · intro msg
    unfold resourceNewRelicNrqlAlertConditionDelete
    simp only [hids, h1]
    repeat' split
    all_goals simp
  · unfold resourceNewRelicNrqlAlertConditionDelete
    simp only [hids, h1]
    repeat' split
    all_goals simp
  · unfold resourceNewRelicNrqlAlertConditionRead
    simp only [hids, h0, h1]
    repeat' split
    all_goals simp

/-- C8 at a concrete input: policy 7; Create stores the ID of the new
condition 43; the later handlers run on the stored ID of condition 42. -/
theorem composite_id_round_trip_witness :
    (minInt ≤ 7 ∧ (7 : Int) ≤ maxInt) ∧ (minInt ≤ 42 ∧ (42 : Int) ≤ maxInt) ∧
    (conditionData "7:42" "static").Id = serializeIDs [7, 42] ∧
    (resourceNewRelicNrqlAlertConditionCreate nerdGraphProvider memHelpers
        (conditionData "" "static") memAccount).outcome = .returned none ∧
    (resourceNewRelicNrqlAlertConditionCreate nerdGraphProvider memHelpers
        (conditionData "" "static") memAccount).d.Id = serializeIDs [7, 43] ∧
    parseHashedIDs (serializeIDs [7, 42]) = .ok [7, 42] ∧
    (resourceNewRelicNrqlAlertConditionDelete nerdGraphProvider memHelpers
        (conditionData "7:42" "static") memAccount).calls = [Call.DeleteNrqlCondition 42] ∧
    (resourceNewRelicNrqlAlertConditionRead nerdGraphProvider memHelpers
        (conditionData "7:42" "static") memAccount).calls =
      [Call.GetNrqlConditionQuery
        (memHelpers.selectAccountID nerdGraphProvider (conditionData "7:42" "static"))
        (Itoa 42)] :=
  ⟨by decide, by decide, by decide, by decide, by decide,
    (composite_id_round_trip nerdGraphProvider memHelpers (conditionData "" "static")
      (conditionData "7:42" "static") memAccount 7 42 (by decide) (by decide) rfl rfl
      (by decide)).1,
    (composite_id_round_trip nerdGraphProvider memHelpers (conditionData "" "static")
      (conditionData "7:42" "static") memAccount 7 42 (by decide) (by decide) rfl rfl
      (by decide)).2.2.2.2.2.1,
    (composite_id_round_trip nerdGraphProvider memHelpers (conditionData "" "static")
      (conditionData "7:42" "static") memAccount 7 42 (by decide) (by decide) rfl rfl
      (by decide)).2.2.2.2.2.2.2.1 (by decide)⟩


end NewRelic
